import Mathlib

/-!
Verification of the locator-inference engine (POM page controller).

Shallow embedding of `src/backend/src/controllers/pomPageController.ts`:
the locator strategy resolver (`generateLocator`), the relative/anchor
locator builder (`generateRelativeXPath`), the absolute path builder
(`getAbsoluteXPath`), the uniqueness oracle (`evaluateXpath` and the CSS
`querySelectorAll` counts), the page-name deriver and the flow synthesizer
(`analyzeDomAndGenerateSchema`), together with theorems settling the
frozen claims about them.

Modelling conventions:
* JavaScript strings are `List Char` (`Str`); the handful of regex/string
  operations the source uses are re-implemented as executable functions.
* The parsed DOM (`DOMParser` output) is taken as input data: a `Doc` is
  the flat pre-order list of its element nodes, each carrying its path of
  element-child indices from the root, its (uppercase, as in the DOM)
  `tagName`, its attributes, its full recursive text content and the text
  of its first direct text child.  Tree navigation (`parentElement`,
  `previousElementSibling`, `children`, descendants) is done on paths.
* Selector and path-query expressions are kept as ASTs (`CssSel`,
  `XPathExpr`) covering exactly the expression shapes the source builds,
  instead of strings; their evaluators mirror the browser's semantics for
  those shapes.  Evaluation returns `Option Nat`/`Option (List Path)`:
  `none` models a thrown `SyntaxError` on a malformed expression
  (an attribute value or text literal containing characters that would
  break the derived selector syntax).
* A function that can throw is modelled with an `Option` result; `none`
  is the propagated exception.
* `Math.random()` and `crypto.randomUUID()` are modelled by two streams
  `rnd ids : Nat → Nat` consumed in call order, so that determinism
  claims can quantify over distinct streams.
-/

namespace PomSpec

/-- JavaScript strings, embedded as lists of characters. -/
abbrev Str := List Char

/-- Coerce a Lean string literal to the embedding's string type. -/
def str (s : String) : Str := s.data

/-- The apostrophe character (`'`), written via its code point. -/
def aposChar : Char := Char.ofNat 39

/-- The double-quote character (`"`). -/
def quotChar : Char := Char.ofNat 34

/-- The backslash character. -/
def backslashChar : Char := Char.ofNat 92

/-- JS `\s` (as used by the source's regexes) on the characters that occur
in DOM text: space, tab, newline, carriage return, form feed. -/
def isWsChar (c : Char) : Bool :=
  c = ' ' || c = '\t' || c = '\n' || c = '\r' || c = Char.ofNat 12

/-- `0`–`9`, i.e. the regex class `\d` / `0-9`. -/
def isDigitChar (c : Char) : Bool := '0' ≤ c && c ≤ '9'

/-- `a`–`z`, the regex class `a-z`. -/
def isLowerAZ (c : Char) : Bool := 'a' ≤ c && c ≤ 'z'

/-- `A`–`Z`, the regex class `A-Z`. -/
def isUpperAZ (c : Char) : Bool := 'A' ≤ c && c ≤ 'Z'

/-- The regex class `a-zA-Z0-9`. -/
def isAlnumChar (c : Char) : Bool := isLowerAZ c || isUpperAZ c || isDigitChar c

/-- ASCII lower-casing of one character, as JS `toLowerCase` acts on the
ASCII range (all strings handled by the source are ASCII). -/
def lcChar (c : Char) : Char :=
  if isUpperAZ c then Char.ofNat (c.toNat + 32) else c

/-- ASCII upper-casing of one character (JS `toUpperCase`). -/
def ucChar (c : Char) : Char :=
  if isLowerAZ c then Char.ofNat (c.toNat - 32) else c

/-- JS `String.prototype.toLowerCase` (ASCII). -/
def toLowerStr (s : Str) : Str := s.map lcChar

/-- Does the string contain a character satisfying `p`? -/
def hasChar (p : Char → Bool) (s : Str) : Bool := s.any p

/-- JS `String.prototype.startsWith` on list-strings. -/
def strStarts : Str → Str → Bool
  | [], _ => true
  | _ :: _, [] => false
  | c :: cs, d :: ds => c = d && strStarts cs ds

/-- JS `String.prototype.includes` (substring containment). -/
def strHas (needle : Str) : Str → Bool
  | [] => needle.isEmpty
  | c :: tl => strStarts needle (c :: tl) || strHas needle tl

/-- JS `String.prototype.endsWith`. -/
def strEnds (suffix hay : Str) : Bool := strStarts suffix.reverse hay.reverse

/-- Left-trim of JS `trim` (whitespace only). -/
def trimLeft (s : Str) : Str := s.dropWhile isWsChar

/-- JS `String.prototype.trim`. -/
def trimStr (s : Str) : Str := ((trimLeft s).reverse.dropWhile isWsChar).reverse

/-- One step of `replace(/\s+/g, ' ')`: collapse every whitespace run to a
single space. -/
def collapseWs : Str → Str
  | [] => []
  | c :: cs =>
    let r := collapseWs cs
    if isWsChar c then
      match r with
      | ' ' :: _ => r
      | _ => ' ' :: r
    else c :: r

/-- `cleanText` from the source: `text.replace(/\s+/g, ' ').trim()`,
with `null` text arriving as the empty string. -/
def cleanText (s : Str) : Str := trimStr (collapseWs s)

/-- Decimal rendering of a natural number (JS number-to-string for the
integers produced by `Math.floor(Math.random() * 1000)` and path
indices), via bounded recursion on a fuel argument. -/
def natStrAux : Nat → Nat → Str
  | 0, _ => []
  | fuel + 1, n =>
    if n < 10 then [Char.ofNat (48 + n)]
    else natStrAux fuel (n / 10) ++ [Char.ofNat (48 + n % 10)]

/-- Decimal rendering of a natural number. -/
def natStr (n : Nat) : Str := natStrAux (n + 1) n

/-- Split a string at every occurrence of the separator character
(JS `split('/')`: empty fields are kept). -/
def splitOnChar (sep : Char) : Str → List Str
  | [] => [[]]
  | c :: cs =>
    match splitOnChar sep cs with
    | [] => [[c]]
    | g :: gs => if c = sep then [] :: g :: gs else (c :: g) :: gs

/-- The whitespace-separated words of a string: the result of JS
`split(/\s+/)` with the empty fields (which every caller in the source
filters out immediately) already removed. -/
def wsWordsAux (cur : Str) : Str → List Str
  | [] => if cur.isEmpty then [] else [cur.reverse]
  | c :: cs =>
    if isWsChar c then
      if cur.isEmpty then wsWordsAux [] cs else cur.reverse :: wsWordsAux [] cs
    else wsWordsAux (c :: cur) cs

/-- The whitespace-separated words of a string. -/
def wsWords (s : Str) : List Str := wsWordsAux [] s

/-! ## The parsed document -/

/-- A path of element-child indices from the document root to an element
node (text-node siblings are not counted; no source operation depends on
them positionally). -/
abbrev Path := List Nat

/-- One element node of the parsed document: its path, its DOM `tagName`
(uppercase for HTML elements, as `DOMParser` produces), its attribute
list, its recursive text content (`textContent`, `""` when none) and the
text of its first direct text-node child (the node-set `text()` converts
to). -/
structure ERow where
  path : Path
  tagName : Str
  attrs : List (Str × Str)
  textContent : Str
  firstText : Str
  deriving DecidableEq

/-- A parsed document: its `<title>` text and its element nodes listed in
document (pre-)order. -/
structure Doc where
  title : Str
  elems : List ERow
  deriving DecidableEq

/-- `Element.getAttribute`: first binding of the attribute name, `none`
for `null`. -/
def lookupAttr : List (Str × Str) → Str → Option Str
  | [], _ => none
  | (k, v) :: rest, a => if k = a then some v else lookupAttr rest a

/-- `el.getAttribute(a)`. -/
def getAttr (el : ERow) (a : Str) : Option Str := lookupAttr el.attrs a

/-- The element at an exact path, if present. -/
def rowAt (d : Doc) (p : Path) : Option ERow :=
  d.elems.find? (fun r => decide (r.path = p))

/-- Is `q` a strictly deeper extension of `p` (i.e. a descendant path)? -/
def isProperPathExt : Path → Path → Bool
  | [], [] => false
  | [], _ :: _ => true
  | _ :: _, [] => false
  | a :: as, b :: bs => a = b && isProperPathExt as bs

/-- Is `q` a following sibling path of parent `pp` after index `k`? -/
def isFollowingSib (pp : Path) (k : Nat) (q : Path) : Bool :=
  match q.reverse with
  | [] => false
  | j :: r => decide (r.reverse = pp) && decide (k < j)

/-- `doc.getElementsByTagName(tag).length` for a lowercase tag name
(HTML tag matching is case-insensitive). -/
def countByTag (tag : Str) (d : Doc) : Nat :=
  (d.elems.filter (fun r => decide (toLowerStr r.tagName = tag))).length

/-! ## CSS selectors (the shapes `querySelectorAll` receives) -/

/-- The CSS selector shapes the resolver builds. -/
inductive CssSel where
  /-- `#value` (id strategy). -/
  | idSel (v : Str)
  /-- `[name="value"]` (name strategy). -/
  | attrEq (a v : Str)
  /-- `tag[attr="value"]` (special-attribute strategy). -/
  | tagAttrEq (tag a v : Str)
  /-- `.class` (class-name strategy). -/
  | classSel (c : Str)
  deriving DecidableEq

/-- Can this character appear in a bare CSS identifier without breaking
the derived selector? -/
def isCssIdentChar (c : Char) : Bool :=
  isAlnumChar c || c = '-' || c = '_'

/-- Is `v` a usable bare CSS identifier (used after `#` and `.`)?
Values outside this set make the derived selector throw a `SyntaxError`
(the source never escapes them). -/
def cssIdentOK (v : Str) : Bool :=
  !v.isEmpty && v.all isCssIdentChar &&
    !(match v with
      | c :: _ => isDigitChar c
      | [] => false)

/-- Is `v` usable inside `[attr="v"]` without breaking the quoting? -/
def cssAttrValOK (v : Str) : Bool :=
  !(hasChar (fun c => c = quotChar || c = backslashChar) v)

/-- Do the whitespace-separated tokens of a `class` attribute contain
`c`? -/
def classListHas (c : Str) (classAttr : Str) : Bool :=
  (wsWords classAttr).any (fun w => decide (w = c))

/-- `doc.querySelectorAll(sel).length`.  `none` models the `SyntaxError`
thrown on a malformed derived selector; otherwise the number of matching
elements. -/
def cssCount (sel : CssSel) (d : Doc) : Option Nat :=
  match sel with
  | .idSel v =>
    if cssIdentOK v then
      some (d.elems.filter (fun r => decide (getAttr r (str "id") = some v))).length
    else none
  | .attrEq a v =>
    if cssAttrValOK v then
      some (d.elems.filter (fun r => decide (getAttr r a = some v))).length
    else none
  | .tagAttrEq tag a v =>
    if cssAttrValOK v then
      some (d.elems.filter
        (fun r => decide (toLowerStr r.tagName = tag) &&
                  decide (getAttr r a = some v))).length
    else none
  | .classSel c =>
    if cssIdentOK c then
      some (d.elems.filter
        (fun r => match getAttr r (str "class") with
                  | some cl => classListHas c cl
                  | none => false)).length
    else none

/-! ## XPath expressions (the shapes `doc.evaluate` receives) -/

/-- The path-query expression shapes the resolver and the relative
builder emit. -/
inductive XPathExpr where
  /-- `//tag[normalize-space()='txt']`. -/
  | exactText (tag txt : Str)
  /-- `//tag[contains(text(), 'txt')]`. -/
  | containsText (tag txt : Str)
  /-- `(inner)[k]` with a 1-based index. -/
  | indexed (inner : XPathExpr) (k : Nat)
  /-- `anchor/following-sibling::tag`. -/
  | followingSibling (anchor : XPathExpr) (tag : Str)
  /-- `anchor/..//tag`. -/
  | parentDescendant (anchor : XPathExpr) (tag : Str)
  /-- An absolute structural path, emitted as an opaque string by the
  terminal fallback and never re-evaluated by the resolver. -/
  | absolute (s : Str)
  deriving DecidableEq

/-- A text literal spliced between single quotes breaks the query when it
itself contains a single quote (the source never escapes it). -/
def xpathTextOK (txt : Str) : Bool := !(hasChar (fun c => c = aposChar) txt)

/-- The node snapshot of an XPath query in document order, as paths.
`none` models the evaluation error `doc.evaluate` throws on a malformed
expression. -/
def xpathSelect (e : XPathExpr) (d : Doc) : Option (List Path) :=
  match e with
  | .exactText tag txt =>
    if xpathTextOK txt then
      some ((d.elems.filter
        (fun r => decide (toLowerStr r.tagName = tag) &&
                  decide (cleanText r.textContent = txt))).map (·.path))
    else none
  | .containsText tag txt =>
    if xpathTextOK txt then
      some ((d.elems.filter
        (fun r => decide (toLowerStr r.tagName = tag) &&
                  strHas txt r.firstText)).map (·.path))
    else none
  | .indexed inner k =>
    match xpathSelect inner d with
    | none => none
    | some l =>
      some (match l.get? (k - 1) with
            | some p => [p]
            | none => [])
  | .followingSibling anchor tag =>
    match xpathSelect anchor d with
    | none => none
    | some anchors =>
      some (anchors.flatMap (fun ap =>
        match ap.reverse with
        | [] => []
        | k :: r =>
          (d.elems.filter
            (fun row => isFollowingSib (r.reverse) k row.path &&
                        decide (toLowerStr row.tagName = tag))).map (·.path)))
  | .parentDescendant anchor tag =>
    match xpathSelect anchor d with
    | none => none
    | some anchors =>
      some (anchors.flatMap (fun ap =>
        let pp := ap.dropLast
        (d.elems.filter
          (fun row => isProperPathExt pp row.path &&
                      decide (toLowerStr row.tagName = tag))).map (·.path)))
  | .absolute _ => some []

/-- The match count of an XPath query, `none` on a malformed expression
(`doc.evaluate` raw, before any `try`/`catch`). -/
def xpathCount (e : XPathExpr) (d : Doc) : Option Nat :=
  (xpathSelect e d).map (·.length)

/-- `evaluateXpath` from the source: the snapshot length, with the
`try { ... } catch { return 0 }` wrapper — a malformed expression counts
as 0 matches. -/
def evaluateXpath (e : XPathExpr) (d : Doc) : Nat :=
  match xpathSelect e d with
  | none => 0
  | some l => l.length

/-! ## Candidate locators -/

/-- The locator kinds of the source's return type. -/
inductive LocType where
  | id | css | xpath | name | linkText | partLinkText | className | tagName
  deriving DecidableEq

/-- A locator value: a plain string (id, name, link text, class, tag), a
CSS selector, or a path query.  The source renders all three as strings;
the AST keeps the shape available to the uniqueness check. -/
inductive LocValue where
  | s (v : Str)
  | sel (c : CssSel)
  | xp (e : XPathExpr)
  deriving DecidableEq

/-- The resolver's result record `{ type, value, score }`. -/
structure Locator where
  type : LocType
  value : LocValue
  score : Nat
  deriving DecidableEq

/-- Re-evaluate a returned locator against the document: the number of
nodes its expression selects (`none` = the expression cannot be
evaluated).  `linkText`/`partLinkText` carry the visible-text value whose
defining queries are the exact-text and contains-text anchor queries. -/
def locatorCount (l : Locator) (d : Doc) : Option Nat :=
  match l.type, l.value with
  | .id, .s v => cssCount (.idSel v) d
  | .name, .s v => cssCount (.attrEq (str "name") v) d
  | .linkText, .s v => xpathCount (.exactText (str "a") v) d
  | .partLinkText, .s v => xpathCount (.containsText (str "a") v) d
  | .css, .sel c => cssCount c d
  | .className, .s v => cssCount (.classSel v) d
  | .tagName, .s v => some (countByTag v d)
  | .xpath, .xp e => xpathCount e d
  | _, _ => none

/-! ## Absolute path builder (`getAbsoluteXPath`) -/

/-- The same-tag element siblings of the element at `pp ++ [i]`, i.e. the
`parent.childNodes` filtered to element nodes with this `tagName`. -/
def sameTagSiblings (d : Doc) (pp : Path) (tag : Str) : List ERow :=
  d.elems.filter (fun r =>
    decide (r.path.dropLast = pp) && decide (r.tagName = tag))

/-- 1-based ordinal of the element among its same-tag siblings (the `ix`
loop over `parent.childNodes`). -/
def sameTagIndex (d : Doc) (pp : Path) (i : Nat) (tag : Str) : Nat :=
  (d.elems.filter (fun r =>
    decide (r.path.dropLast = pp) && decide (r.tagName = tag) &&
    (match r.path.reverse with
     | [] => false
     | j :: _ => decide (j < i)))).length + 1

/-- `getAbsoluteXPath`, structurally recursive on the reversed path.
The source's `element === document.body` comparison is against the
browser-global document, never the parsed one, so it is always false here
and is omitted.  An element with a non-empty `id` short-circuits to an
id-based path; the root's parent is the document node (`nodeType` 9), the
`/tag` base case. -/
def absAux (d : Doc) : List Nat → Str
  | [] => []
  | i :: restRev =>
    let p := (i :: restRev).reverse
    match rowAt d p with
    | none => []
    | some el =>
      let tag := toLowerStr el.tagName
      match getAttr el (str "id") with
      | some idv =>
        if idv ≠ [] then
          str "//*[@id=" ++ [quotChar] ++ idv ++ [quotChar] ++ str "]"
        else
          if restRev = [] then '/' :: tag
          else
            let pp := restRev.reverse
            if (sameTagSiblings d pp el.tagName).length = 1 then
              absAux d restRev ++ '/' :: tag
            else
              absAux d restRev ++ '/' :: tag ++ '[' ::
                natStr (sameTagIndex d pp i el.tagName) ++ [']']
      | none =>
        if restRev = [] then '/' :: tag
        else
          let pp := restRev.reverse
          if (sameTagSiblings d pp el.tagName).length = 1 then
            absAux d restRev ++ '/' :: tag
          else
            absAux d restRev ++ '/' :: tag ++ '[' ::
              natStr (sameTagIndex d pp i el.tagName) ++ [']']

/-- `getAbsoluteXPath(element)`. -/
def getAbsoluteXPath (d : Doc) (el : ERow) : Str := absAux d el.path.reverse

/-! ## Relative/anchor locator builder (`generateRelativeXPath`) -/

/-- The preceding element siblings of the element at `pp ++ [·]`, nearest
first (the `previousElementSibling` walk). -/
def prevSibs (d : Doc) (pp : Path) : Nat → List ERow
  | 0 => []
  | j + 1 =>
    match rowAt d (pp ++ [j]) with
    | some r => r :: prevSibs d pp j
    | none => prevSibs d pp j

/-- The preceding element siblings of `el`, nearest first. -/
def prevSiblings (d : Doc) (el : ERow) : List ERow :=
  match el.path.reverse with
  | [] => []
  | i :: restRev => prevSibs d restRev.reverse i

/-- The element children of the parent of `el`, excluding `el` itself, in
document order (`Array.from(parent.children).filter(c => c !== el)`). -/
def otherParentChildren (d : Doc) (el : ERow) : List ERow :=
  d.elems.filter (fun r =>
    decide (r.path.dropLast = el.path.dropLast) && decide (r.path ≠ el.path))

/-- Strategy A of the builder: walk preceding siblings nearest first; a
sibling with trimmed text of length > 2 whose exact-text anchor is
globally unique and whose `following-sibling::tag` query hits exactly one
node yields that compound query, score 95. -/
def stratA (d : Doc) (tag : Str) : List ERow → Option (XPathExpr × Nat)
  | [] => none
  | sib :: rest =>
    if cleanText sib.textContent ≠ [] ∧ 2 < (cleanText sib.textContent).length then
      if evaluateXpath
           (.exactText (toLowerStr sib.tagName) (cleanText sib.textContent)) d = 1 then
        if evaluateXpath
             (.followingSibling
               (.exactText (toLowerStr sib.tagName) (cleanText sib.textContent)) tag) d = 1 then
          some (.followingSibling
            (.exactText (toLowerStr sib.tagName) (cleanText sib.textContent)) tag, 95)
        else stratA d tag rest
      else stratA d tag rest
    else stratA d tag rest

/-- Strategy B of the builder: for each other child of the same parent
with trimmed text of length in (2, 50), if its exact-text anchor is
unique and `anchor/..//tag` hits exactly one node, return it, score 92. -/
def stratB (d : Doc) (tag : Str) : List ERow → Option (XPathExpr × Nat)
  | [] => none
  | sib :: rest =>
    if cleanText sib.textContent ≠ [] ∧ 2 < (cleanText sib.textContent).length ∧
       (cleanText sib.textContent).length < 50 then
      if evaluateXpath
           (.exactText (toLowerStr sib.tagName) (cleanText sib.textContent)) d = 1 then
        if evaluateXpath
             (.parentDescendant
               (.exactText (toLowerStr sib.tagName) (cleanText sib.textContent)) tag) d = 1 then
          some (.parentDescendant
            (.exactText (toLowerStr sib.tagName) (cleanText sib.textContent)) tag, 92)
        else stratB d tag rest
      else stratB d tag rest
    else stratB d tag rest

/-- `generateRelativeXPath(el, doc)`: Strategy A over the preceding
siblings, then — when a parent element exists — Strategy B over the
parent's other children; `none` when neither finds a unique anchor. -/
def generateRelativeXPath (d : Doc) (el : ERow) : Option (XPathExpr × Nat) :=
  let tag := toLowerStr el.tagName
  match stratA d tag (prevSiblings d el) with
  | some r => some r
  | none =>
    if el.path.dropLast ≠ [] then
      stratB d tag (otherParentChildren d el)
    else none

/-! ## Locator strategy resolver (`generateLocator`) -/

/-- `ATTRIBUTE_PRIORITY` from the source. -/
def ATTRIBUTE_PRIORITY : List Str :=
  [str "id", str "name", str "data-testid", str "data-test", str "data-cy",
   str "placeholder", str "aria-label", str "title", str "alt", str "class"]

/-- `INTERACTIVE_TAGS` from the source. -/
def INTERACTIVE_TAGS : List Str :=
  [str "input", str "button", str "a", str "select", str "textarea"]

/-- A tier outcome: `none` = the tier threw (a malformed derived selector
reached a bare `querySelectorAll`/`evaluate`); `some none` = the tier is
not viable, fall through; `some (some l)` = the tier returned `l`. -/
abbrev TierOut := Option (Option Locator)

/-- Tier 1, id strategy: a non-empty `id` with no digit and neither
`ext` nor `gen` as a substring, whose `#id` selector matches exactly one
node, scores 100. -/
def tierId (d : Doc) (el : ERow) : TierOut :=
  match getAttr el (str "id") with
  | none => some none
  | some idv =>
    if idv ≠ [] ∧ ¬hasChar isDigitChar idv ∧
       ¬strHas (str "ext") idv ∧ ¬strHas (str "gen") idv then
      match cssCount (.idSel idv) d with
      | none => none
      | some n =>
        if n = 1 then some (some ⟨.id, .s idv, 100⟩) else some none
    else some none

/-- Tier 2, name strategy: a non-empty `name` whose `[name="…"]` selector
matches exactly one node, scores 95. -/
def tierName (d : Doc) (el : ERow) : TierOut :=
  match getAttr el (str "name") with
  | none => some none
  | some nv =>
    if nv ≠ [] then
      match cssCount (.attrEq (str "name") nv) d with
      | none => none
      | some n =>
        if n = 1 then some (some ⟨.name, .s nv, 95⟩) else some none
    else some none

/-- Tier 3, link text (anchors only): the cleaned visible text, when
shorter than 60 characters and uniquely matched by the exact-text anchor
query, scores 90. -/
def tierLinkText (d : Doc) (tag text : Str) : Option Locator :=
  if tag = str "a" ∧ text ≠ [] ∧ text.length < 60 then
    if evaluateXpath (.exactText (str "a") text) d = 1 then
      some ⟨.linkText, .s text, 90⟩
    else none
  else none

/-- Tier 4, partial link text (anchors only): the first 15 characters of
text longer than 5, when uniquely matched by the contains-text query,
scores 85. -/
def tierPartialLink (d : Doc) (tag text : Str) : Option Locator :=
  if tag = str "a" ∧ text ≠ [] ∧ 5 < text.length then
    if evaluateXpath (.containsText (str "a") (text.take 15)) d = 1 then
      some ⟨.partLinkText, .s (text.take 15), 85⟩
    else none
  else none

/-- Tier 5 loop body: walk `ATTRIBUTE_PRIORITY`, skipping `id`, `class`
and `name`; the first present attribute whose tag-scoped equality
selector matches exactly one node scores 80. -/
def tryAttrs (d : Doc) (el : ERow) (tag : Str) : List Str → TierOut
  | [] => some none
  | attr :: rest =>
    if attr = str "id" ∨ attr = str "class" ∨ attr = str "name" then
      tryAttrs d el tag rest
    else
      match getAttr el attr with
      | none => tryAttrs d el tag rest
      | some v =>
        if v ≠ [] then
          match cssCount (.tagAttrEq tag attr v) d with
          | none => none
          | some n =>
            if n = 1 then
              some (some ⟨.css, .sel (.tagAttrEq tag attr v), 80⟩)
            else tryAttrs d el tag rest
        else tryAttrs d el tag rest

/-- Tier 6 loop body: each candidate class (generic classes dropped) is
tried as a bare class selector; a selector error is swallowed and the
class skipped; a unique match scores 75. -/
def tryClasses (d : Doc) : List Str → Option Locator
  | [] => none
  | c :: rest =>
    match cssCount (.classSel c) d with
    | none => tryClasses d rest
    | some n =>
      if n = 1 then some ⟨.className, .s c, 75⟩ else tryClasses d rest

/-- Tier 6, class-name strategy. -/
def tierClass (d : Doc) (el : ERow) : Option Locator :=
  match getAttr el (str "class") with
  | none => none
  | some cl =>
    if cl ≠ [] then
      tryClasses d ((wsWords cl).filter (fun c =>
        !(c = str "btn" ∨ c = str "form-control" ∨ c = str "input")))
    else none

/-- The `snapshotItem` loop of tier 8: first index whose item is the
element itself. -/
def findIndexAux (p : Path) : List Path → Nat → Option Nat
  | [], _ => none
  | q :: qs, k => if q = p then some k else findIndexAux p qs (k + 1)

/-- Tier 8A, text XPath (after the unique-tag tier): an exact-text query
on the element's own tag scores 60 when unique; when ambiguous, the
element's 1-based ordinal among the matches yields an indexed variant,
score 55.  The ambiguous branch re-runs `doc.evaluate` outside any
`try`/`catch`. -/
def tierTextXPath (d : Doc) (el : ERow) (tag text : Str) : TierOut :=
  if text ≠ [] ∧ 2 < text.length ∧ text.length < 60 then
    if evaluateXpath (.exactText tag text) d = 1 then
      some (some ⟨.xpath, .xp (.exactText tag text), 60⟩)
    else if 1 < evaluateXpath (.exactText tag text) d then
      match xpathSelect (.exactText tag text) d with
      | none => none
      | some snapshot =>
        match findIndexAux el.path snapshot 0 with
        | some i =>
          some (some ⟨.xpath, .xp (.indexed (.exactText tag text) (i + 1)), 55⟩)
        | none => some none
    else some none
  else some none

/-- `generateLocator(el, doc)`: the ranked strategy chain.  `none` models
a propagated selector `SyntaxError` (nothing catches one outside the
class tier). -/
def generateLocator (d : Doc) (el : ERow) : Option Locator :=
  match tierId d el with
  | none => none
  | some (some l) => some l
  | some none =>
  match tierName d el with
  | none => none
  | some (some l) => some l
  | some none =>
  match tierLinkText d (toLowerStr el.tagName) (cleanText el.textContent) with
  | some l => some l
  | none =>
  match tierPartialLink d (toLowerStr el.tagName) (cleanText el.textContent) with
  | some l => some l
  | none =>
  match tryAttrs d el (toLowerStr el.tagName) ATTRIBUTE_PRIORITY with
  | none => none
  | some (some l) => some l
  | some none =>
  match tierClass d el with
  | some l => some l
  | none =>
  if countByTag (toLowerStr el.tagName) d = 1 then
    some ⟨.tagName, .s (toLowerStr el.tagName), 70⟩
  else
  match tierTextXPath d el (toLowerStr el.tagName) (cleanText el.textContent) with
  | none => none
  | some (some l) => some l
  | some none =>
  match generateRelativeXPath d el with
  | some r => some ⟨.xpath, .xp r.1, 50⟩
  | none => some ⟨.xpath, .xp (.absolute (getAbsoluteXPath d el)), 10⟩

/-! ## Variable-name generation (`generateVarName`) -/

/-- `replace(/[^a-z0-9]/g, '_')` on one character. -/
def sanitizeNameChar (c : Char) : Char :=
  if isLowerAZ c || isDigitChar c then c else '_'

/-- `replace(/^_+|_+$/g, '')`. -/
def stripEdgeUnderscores (s : Str) : Str :=
  ((s.dropWhile (· = '_')).reverse.dropWhile (· = '_')).reverse

/-- `base.toLowerCase().replace(/[^a-z0-9]/g,'_').replace(/^_+|_+$/g,'')`:
the deterministic part of the generated variable name. -/
def varNameCore (base : Str) : Str :=
  stripEdgeUnderscores ((toLowerStr base).map sanitizeNameChar)

/-- `generateVarName(base, tag)`.  `randDraw` is the value
`Math.floor(Math.random() * 1000)` would use; it is consumed only when
the normalized base is empty. -/
def generateVarName (randDraw : Nat) (base tag : Str) : Str :=
  (if varNameCore base = [] then str "element_" ++ natStr (randDraw % 1000)
   else varNameCore base) ++ '_' :: tag

/-! ## Page-name derivation -/

/-- Model of the platform URL parser (`new URL(url)`), restricted to the
`http(s)` scheme: `none` models the constructor throwing, otherwise the
`pathname` (query and fragment stripped). -/
def parseURL (u : Str) : Option Str :=
  let hostPath := fun (rest : Str) =>
    let host := rest.takeWhile (fun c => !(c = '/' || c = '?' || c = '#'))
    if host.isEmpty then none
    else some ((rest.drop host.length).takeWhile (fun c => !(c = '?' || c = '#')))
  if strStarts (str "https://") u then hostPath (u.drop 8)
  else if strStarts (str "http://") u then hostPath (u.drop 7)
  else none

/-- `w.charAt(0).toUpperCase() + w.slice(1)`. -/
def capWord : Str → Str
  | [] => []
  | c :: rest => ucChar c :: rest

/-- Title naming strategy (strategy 2 of the source): the title's text
before the first `-`/`|`, trimmed and stripped to alphanumerics and
whitespace, its words longer than 2 characters, the first three
capitalized and concatenated. -/
def titleStrategy (title : Str) : Str :=
  let cleanTitle :=
    (trimStr (title.takeWhile (fun c => !(c = '-' || c = '|')))).filter
      (fun c => isAlnumChar c || isWsChar c)
  let words := (wsWords cleanTitle).filter (fun w => 2 < w.length)
  ((words.take 3).map capWord).flatten

/-- `urlObj.pathname.split('/').filter(p => p.length > 0)`. -/
def pathSegmentsOf (pathname : Str) : List Str :=
  (splitOnChar '/' pathname).filter (fun p => 0 < p.length)

/-- The segments that are neither purely numeric nor 30+ characters
long. -/
def meaningfulSegments (pathname : Str) : List Str :=
  (pathSegmentsOf pathname).filter
    (fun s => !s.all isDigitChar && decide (s.length < 30))

/-- `lastSegment.charAt(0).toUpperCase() +
lastSegment.slice(1).replace(/[^a-zA-Z0-9]/g, '')`. -/
def segmentName (pathname : Str) : Str :=
  match (meaningfulSegments pathname).getLast? with
  | some (c :: rest) => ucChar c :: rest.filter isAlnumChar
  | _ => []

/-- The raw derived name before the final cap/suffix safety: URL
segment, then title, then the initial `"HomePage"`. -/
def rawPageName (pathname title : Str) : Str :=
  if meaningfulSegments pathname ≠ [] then segmentName pathname
  else if title ≠ [] then titleStrategy title
  else str "HomePage"

/-- The 20-character cap (`derivedName.substring(0, 20)`). -/
def capTwenty (n : Str) : Str := if 20 < n.length then n.take 20 else n

/-- `if (!derivedName.endsWith('Page')) derivedName += 'Page'`. -/
def ensurePageSuffix (n : Str) : Str :=
  if strEnds (str "Page") n then n else n ++ str "Page"

/-- The final safety of the naming block: empty fallback, 20-character
cap, `Page` suffix unless already present. -/
def finishPageName (n : Str) : Str :=
  ensurePageSuffix (capTwenty (if n = [] then str "HomePage" else n))

/-- The page-naming logic of `analyzeDomAndGenerateSchema` (its
`try`/`catch` block): URL path segment first, title fallback, the
`catch` branch on an unparseable URL, the 20-character cap and the
`Page` suffix. -/
def derivePageName (url : Str) (title : Str) : Str :=
  match parseURL url with
  | none =>
    if title ≠ [] then (title.filter isAlnumChar).take 15 ++ str "Page"
    else str "HomePage"
  | some pathname => finishPageName (rawPageName pathname title)

/-- `derivedName.split(/(?=[A-Z])/).join('_').toLowerCase()`, tail. -/
def snakeAux : Str → Str
  | [] => []
  | c :: cs =>
    if isUpperAZ c then '_' :: lcChar c :: snakeAux cs
    else lcChar c :: snakeAux cs

/-- `derivedName.split(/(?=[A-Z])/).join('_').toLowerCase()`. -/
def snakeCase : Str → Str
  | [] => []
  | c :: cs => lcChar c :: snakeAux cs

/-! ## The inference pipeline (`analyzeDomAndGenerateSchema`) -/

/-- `ElementDefinition` (entity ids are naturals drawn from the id
stream). -/
structure ElementDefinition where
  id : Nat
  name : Str
  locatorType : LocType
  locatorValue : LocValue
  description : Str
  deriving DecidableEq

/-- `TestStep` (`value` is `none` for JS `undefined`). -/
structure TestStep where
  id : Nat
  action : Str
  value : Option Str
  description : Str
  deriving DecidableEq

/-- `TestCase`. -/
structure TestCase where
  id : Nat
  name : Str
  type : Str
  steps : List TestStep
  deriving DecidableEq

/-- `PageDefinition`. -/
structure PageDefinition where
  id : Nat
  name : Str
  elements : List ElementDefinition
  deriving DecidableEq

/-- The returned `Partial<AutomationProject>`: `{ pages, tests }`. -/
structure AnalyzeResult where
  pages : List PageDefinition
  tests : List TestCase
  deriving DecidableEq

/-- `doc.querySelectorAll(INTERACTIVE_TAGS.join(', '))` in document
order. -/
def selectInteractive (d : Doc) : List ERow :=
  d.elems.filter (fun r => decide (toLowerStr r.tagName ∈ INTERACTIVE_TAGS))

/-- `el.tagName === 'INPUT' && el.type === 'hidden'` (the `type` IDL
attribute compares its content attribute case-insensitively). -/
def isHiddenInput (el : ERow) : Bool :=
  el.tagName = str "INPUT" &&
    decide ((getAttr el (str "type")).map toLowerStr = some (str "hidden"))

/-- The `nameBase` fallback chain
`id || name || placeholder || textContent || aria-label || tagName`. -/
def orStr (x : Option Str) (y : Str) : Str :=
  match x with
  | some v => if v = [] then y else v
  | none => y

/-- The `nameBase` of one scraped element. -/
def nameBaseOf (el : ERow) : Str :=
  orStr (getAttr el (str "id"))
    (orStr (getAttr el (str "name"))
      (orStr (getAttr el (str "placeholder"))
        (if el.textContent ≠ [] then el.textContent
         else orStr (getAttr el (str "aria-label")) el.tagName)))

/-- The name generated for one scraped element, `r` being the current
random-stream position. -/
def genNameOf (rnd : Nat → Nat) (r : Nat) (el : ERow) : Str :=
  generateVarName (rnd r) (cleanText (nameBaseOf el)) (toLowerStr el.tagName)

/-- The random-stream position after one element: `Math.random()` is
consumed exactly when the normalized name base is empty. -/
def nextR (r : Nat) (el : ERow) : Nat :=
  if varNameCore (cleanText (nameBaseOf el)) = [] then r + 1 else r

/-- The pushed element record. -/
def mkElemDef (idn : Nat) (nm : Str) (el : ERow) (loc : Locator) :
    ElementDefinition :=
  ⟨idn, nm, loc.type, loc.value,
   str "Auto-generated for <" ++ toLowerStr el.tagName ++ str ">"⟩

/-- The element-scraping loop (`nodes.forEach`): skip hidden inputs,
resolve a locator (propagating a thrown selector error), generate a
name, drop later duplicates, assign a fresh entity id.  The state is the
accumulated list, the random-stream index and the id-stream index. -/
def scrapeElems (d : Doc) (rnd ids : Nat → Nat) :
    List ERow → List ElementDefinition → Nat → Nat →
    Option (List ElementDefinition × Nat × Nat)
  | [], acc, r, i => some (acc, r, i)
  | el :: rest, acc, r, i =>
    if isHiddenInput el then scrapeElems d rnd ids rest acc r i
    else
      match generateLocator d el with
      | none => none
      | some loc =>
        match acc.find? (fun e2 => decide (e2.name = genNameOf rnd r el)) with
        | some _ => scrapeElems d rnd ids rest acc (nextR r el) i
        | none =>
          scrapeElems d rnd ids rest
            (acc ++ [mkElemDef (ids i) (genNameOf rnd r el) el loc])
            (nextR r el) (i + 1)

/-- `e.name.includes('user') || e.name.includes('email') ||
e.name.includes('login')`. -/
def userLikeB (e : ElementDefinition) : Bool :=
  strHas (str "user") e.name || strHas (str "email") e.name ||
    strHas (str "login") e.name

/-- `e.name.includes('pass')`. -/
def passLikeB (e : ElementDefinition) : Bool := strHas (str "pass") e.name

/-- `e.name.includes('submit') || e.name.includes('login') ||
e.name.includes('sign_in')`. -/
def submitLikeB (e : ElementDefinition) : Bool :=
  strHas (str "submit") e.name || strHas (str "login") e.name ||
    strHas (str "sign_in") e.name

/-- `e.name.includes('search') || e.name.includes('query')`. -/
def searchLikeB (e : ElementDefinition) : Bool :=
  strHas (str "search") e.name || strHas (str "query") e.name

/-- `test_${snakePage}_login_flow`. -/
def loginTestName (snake : Str) : Str :=
  str "test_" ++ snake ++ str "_login_flow"

/-- `test_${snakePage}_search`. -/
def searchTestName (snake : Str) : Str := str "test_" ++ snake ++ str "_search"

/-- `test_${snakePage}_basic_interactions`. -/
def fallbackTestName (snake : Str) : Str :=
  str "test_" ++ snake ++ str "_basic_interactions"

/-- Login-flow detection and emission (the
`if (userInputs.length > 0 && passInputs.length > 0 &&
submitBtns.length > 0)` push). -/
def loginTests (ids : Nat → Nat) (i : Nat) (snake : Str)
    (elements : List ElementDefinition) : List TestCase :=
  match elements.filter userLikeB, elements.filter passLikeB,
        elements.filter submitLikeB with
  | u :: _, p :: _, s :: _ =>
    [⟨ids i, loginTestName snake, str "smoke",
      [⟨ids (i + 1), str "input", some (str "standard_user"),
        str "Enter username into " ++ u.name⟩,
       ⟨ids (i + 2), str "input", some (str "secret_sauce"),
        str "Enter password into " ++ p.name⟩,
       ⟨ids (i + 3), str "click", some [], str "Click " ++ s.name⟩,
       ⟨ids (i + 4), str "assert_visible", some (str "dashboard"),
        str "Verify successful login location"⟩]⟩]
  | _, _, _ => []

/-- Search-flow detection and emission. -/
def searchTests (ids : Nat → Nat) (i : Nat) (snake : Str)
    (elements : List ElementDefinition) : List TestCase :=
  match elements.filter searchLikeB with
  | s :: _ =>
    [⟨ids i, searchTestName snake, str "regression",
      [⟨ids (i + 1), str "input", some (str "Test Item"),
        str "Type search query in " ++ s.name⟩,
       ⟨ids (i + 2), str "click", some (str "Enter"), str "Submit search"⟩,
       ⟨ids (i + 3), str "assert_visible", some (str "results"),
        str "Verify results appear"⟩]⟩]
  | [] => []

/-- The generic-fallback steps over `elements.slice(0, 4)`. -/
def fbSteps (ids : Nat → Nat) : List ElementDefinition → Nat → List TestStep
  | [], _ => []
  | e :: rest, i =>
    ⟨ids i,
     if strHas (str "input") e.name then str "input" else str "click",
     if strHas (str "input") e.name then some (str "test_data") else none,
     str "Interact with " ++ e.name⟩ :: fbSteps ids rest (i + 1)

/-- Generic-fallback emission (fires only when no specific flow was
pushed and at least one element exists; the caller checks that). -/
def fallbackTests (ids : Nat → Nat) (i : Nat) (snake : Str)
    (elements : List ElementDefinition) : List TestCase :=
  [⟨ids i, fallbackTestName snake, str "smoke",
    fbSteps ids (elements.take 4) (i + 1)⟩]

/-- The id-stream position after the login push. -/
def loginIdx (ids : Nat → Nat) (i : Nat) (snake : Str)
    (elements : List ElementDefinition) : Nat :=
  i + 5 * (loginTests ids i snake elements).length

/-- The id-stream position after the search push. -/
def searchIdx (ids : Nat → Nat) (i : Nat) (snake : Str)
    (elements : List ElementDefinition) : Nat :=
  i + 4 * (searchTests ids i snake elements).length

/-- The whole `generatedTests` list: login, then search, then — exactly
when both came up empty and elements exist — the generic fallback. -/
def allTests (ids : Nat → Nat) (i : Nat) (snake : Str)
    (elements : List ElementDefinition) : List TestCase :=
  loginTests ids i snake elements ++
  searchTests ids (loginIdx ids i snake elements) snake elements ++
  (if loginTests ids i snake elements ++
      searchTests ids (loginIdx ids i snake elements) snake elements = [] ∧
      elements ≠ [] then
     fallbackTests ids
       (searchIdx ids (loginIdx ids i snake elements) snake elements)
       snake elements
   else [])

/-- The id-stream position after all test pushes (feeds the page's own
entity id). -/
def afterTestsIdx (ids : Nat → Nat) (i : Nat) (snake : Str)
    (elements : List ElementDefinition) : Nat :=
  if loginTests ids i snake elements ++
     searchTests ids (loginIdx ids i snake elements) snake elements = [] ∧
     elements ≠ [] then
    searchIdx ids (loginIdx ids i snake elements) snake elements + 1 +
      (elements.take 4).length
  else searchIdx ids (loginIdx ids i snake elements) snake elements

/-- `analyzeDomAndGenerateSchema(html, url)`: page naming, element
scraping, flow synthesis, one page.  `none` models a propagated selector
error from the resolver. -/
def analyzeDomAndGenerateSchema (d : Doc) (url : Str) (rnd ids : Nat → Nat) :
    Option AnalyzeResult :=
  match scrapeElems d rnd ids (selectInteractive d) [] 0 0 with
  | none => none
  | some s =>
    some ⟨[⟨ids (afterTestsIdx ids s.2.2 (snakeCase (derivePageName url d.title)) s.1),
            derivePageName url d.title, s.1⟩],
          allTests ids s.2.2 (snakeCase (derivePageName url d.title)) s.1⟩

/-! ## Id-erasure views (entity ids are opaque) -/

/-- A test step without its entity id. -/
structure StepData where
  action : Str
  value : Option Str
  description : Str
  deriving DecidableEq

/-- A test case without entity ids. -/
structure TestData where
  name : Str
  type : Str
  steps : List StepData
  deriving DecidableEq

/-- An element definition without its entity id. -/
structure ElemData where
  name : Str
  locatorType : LocType
  locatorValue : LocValue
  description : Str
  deriving DecidableEq

/-- A page without entity ids. -/
structure PageData where
  name : Str
  elements : List ElemData
  deriving DecidableEq

/-- A whole result without entity ids. -/
structure ResultData where
  pages : List PageData
  tests : List TestData
  deriving DecidableEq

/-- Erase the entity id of a test step. -/
def stepData (s : TestStep) : StepData := ⟨s.action, s.value, s.description⟩

/-- Erase the entity ids of a test case. -/
def testData (t : TestCase) : TestData :=
  ⟨t.name, t.type, t.steps.map stepData⟩

/-- Erase the entity id of an element definition. -/
def elemData (e : ElementDefinition) : ElemData :=
  ⟨e.name, e.locatorType, e.locatorValue, e.description⟩

/-- Erase the entity ids of a page. -/
def pageData (p : PageDefinition) : PageData :=
  ⟨p.name, p.elements.map elemData⟩

/-- Erase all entity ids of a result. -/
def resultData (r : AnalyzeResult) : ResultData :=
  ⟨r.pages.map pageData, r.tests.map testData⟩

/-- All element definitions of a result (the single page's list). -/
def resElems (r : AnalyzeResult) : List ElementDefinition :=
  (r.pages.map (·.elements)).flatten

/-- Case-insensitive substring containment (the spec's reading of the
keyword matching; on the lowercase generated names it coincides with the
source's case-sensitive `includes`). -/
def ciHas (needle s : Str) : Bool :=
  strHas (toLowerStr needle) (toLowerStr s)

/-- The login-flow detection condition of the synthesizer. -/
def loginDetectedB (es : List ElementDefinition) : Bool :=
  !(es.filter userLikeB).isEmpty && !(es.filter passLikeB).isEmpty &&
    !(es.filter submitLikeB).isEmpty

/-- The search-flow detection condition of the synthesizer. -/
def searchDetectedB (es : List ElementDefinition) : Bool :=
  !(es.filter searchLikeB).isEmpty

/-- The id-erased view of the four ordered login steps, in terms of the
names of the first username-like, password-like and submit-like
elements. -/
def loginStepsData (un pn sn : Str) : List StepData :=
  [⟨str "input", some (str "standard_user"), str "Enter username into " ++ un⟩,
   ⟨str "input", some (str "secret_sauce"), str "Enter password into " ++ pn⟩,
   ⟨str "click", some [], str "Click " ++ sn⟩,
   ⟨str "assert_visible", some (str "dashboard"),
    str "Verify successful login location"⟩]

/-! ## Concrete documents used by counterexamples and witnesses -/

/-- The username input of `DocLogin`. -/
def rowUsername : ERow :=
  ⟨[0, 0, 0], str "INPUT", [(str "id", str "username")], [], []⟩

/-- The password input of `DocLogin` (name attribute only). -/
def rowPassword : ERow :=
  ⟨[0, 0, 1], str "INPUT",
   [(str "name", str "password"), (str "type", str "password")], [], []⟩

/-- The submit button of `DocLogin`. -/
def rowSubmit : ERow :=
  ⟨[0, 0, 2], str "BUTTON", [(str "id", str "submit")], str "Login",
   str "Login"⟩

/-- A small login page: a username input, a password input and a submit
button. -/
def DocLogin : Doc :=
  { title := str "Demo",
    elems :=
      [⟨[0], str "HTML", [], str "Login", []⟩,
       ⟨[0, 0], str "BODY", [], str "Login", []⟩,
       rowUsername, rowPassword, rowSubmit] }

/-- The source URL paired with `DocLogin`. -/
def urlLogin : Str := str "https://app.example.com/login"

/-- The attribute-less input right after a `<label>Email</label>`, with a
second input elsewhere so that no earlier tier is viable. -/
def rowAnchored : ERow := ⟨[0, 0, 0, 1], str "INPUT", [], [], []⟩

/-- A page with a `<label>Email</label><input>` pair inside a `<div>`
and a second bare input: the first input resolves only through the
relative/anchor tier. -/
def DocAnchor : Doc :=
  { title := str "T",
    elems :=
      [⟨[0], str "HTML", [], str "Email", []⟩,
       ⟨[0, 0], str "BODY", [], str "Email", []⟩,
       ⟨[0, 0, 0], str "DIV", [], str "Email", []⟩,
       ⟨[0, 0, 0, 0], str "LABEL", [], str "Email", str "Email"⟩,
       rowAnchored,
       ⟨[0, 0, 1], str "INPUT", [], [], []⟩] }

/-- A page whose only interactive element has `placeholder="???"`: its
name base normalizes to the empty string, so its generated name takes
the randomized fallback. -/
def DocRandomName : Doc :=
  { title := str "T",
    elems :=
      [⟨[0], str "HTML", [], [], []⟩,
       ⟨[0, 0], str "BODY", [], [], []⟩,
       ⟨[0, 0, 0], str "INPUT", [(str "placeholder", str "???")], [], []⟩] }

/-- The source URL paired with `DocRandomName`. -/
def urlRandomName : Str := str "https://x.example/a"

/-- A `name` attribute value containing a double quote: the derived
selector `[name="a"b"]` is malformed. -/
def badNameVal : Str := ['a', Char.ofNat 34, 'b']

/-- The input carrying the pathological `name` value. -/
def rowBadName : ERow := ⟨[0, 0, 0], str "INPUT", [(str "name", badNameVal)], [], []⟩

/-- A page whose only interactive element has the pathological `name`
value. -/
def DocBadName : Doc :=
  { title := str "T",
    elems :=
      [⟨[0], str "HTML", [], [], []⟩,
       ⟨[0, 0], str "BODY", [], [], []⟩,
       rowBadName] }

/-- A page with no interactive elements at all. -/
def DocEmpty : Doc :=
  { title := str "T",
    elems :=
      [⟨[0], str "HTML", [], str "hi", []⟩,
       ⟨[0, 0], str "BODY", [], str "hi", []⟩] }

/-- The URL of the page-naming scenario of C4. -/
def urlProducts : Str := str "https://shop.example.com/products/42"

/-! ## Helper lemmas: the uniqueness oracle -/

/-- A non-zero `evaluateXpath` count certifies that the expression
evaluated without error and returned that snapshot length. -/
theorem evalx_pos {e : XPathExpr} {d : Doc} {n : Nat} (hn : n ≠ 0)
    (h : evaluateXpath e d = n) : xpathCount e d = some n := by
  unfold evaluateXpath at h
  unfold xpathCount
  cases hx : xpathSelect e d with
  | none => simp only [hx] at h; exact absurd h.symm hn
  | some l => simp only [hx] at h; simp [hx, h]

/-- The `findIndexAux` loop finds only in-range indices. -/
theorem findIndexAux_lt {p : Path} :
    ∀ (l : List Path) (k i : Nat), findIndexAux p l k = some i →
      k ≤ i ∧ i - k < l.length := by
  intro l
  induction l with
  | nil => intro k i h; simp [findIndexAux] at h
  | cons q qs ih =>
    intro k i h
    unfold findIndexAux at h
    split at h
    · cases h
      exact ⟨Nat.le_refl _, by simp⟩
    · obtain ⟨h1, h2⟩ := ih (k + 1) i h
      exact ⟨Nat.le_of_succ_le h1, by simp; omega⟩

/-! ## Helper lemmas: tier characterizations -/

/-- Tier 1 returns only an id locator, score 100, whose selector was
checked unique. -/
theorem tierId_char {d : Doc} {el : ERow} {l : Locator}
    (h : tierId d el = some (some l)) :
    ∃ v, l = ⟨.id, .s v, 100⟩ ∧ cssCount (.idSel v) d = some 1 := by
  unfold tierId at h
  cases hga : getAttr el (str "id") with
  | none => simp only [hga] at h; exact absurd h (by simp)
  | some idv =>
    simp only [hga] at h
    split at h
    · cases hcss : cssCount (.idSel idv) d with
      | none => simp only [hcss] at h; exact absurd h (by simp)
      | some n =>
        simp only [hcss] at h
        split at h
        · rename_i hn
          cases h
          exact ⟨idv, rfl, by rw [hcss, hn]⟩
        · exact absurd h (by simp)
    · exact absurd h (by simp)

/-- Tier 2 returns only a name locator, score 95, whose selector was
checked unique. -/
theorem tierName_char {d : Doc} {el : ERow} {l : Locator}
    (h : tierName d el = some (some l)) :
    ∃ v, l = ⟨.name, .s v, 95⟩ ∧
      cssCount (.attrEq (str "name") v) d = some 1 := by
  unfold tierName at h
  cases hga : getAttr el (str "name") with
  | none => simp only [hga] at h; exact absurd h (by simp)
  | some nv =>
    simp only [hga] at h
    split at h
    · cases hcss : cssCount (.attrEq (str "name") nv) d with
      | none => simp only [hcss] at h; exact absurd h (by simp)
      | some n =>
        simp only [hcss] at h
        split at h
        · rename_i hn
          cases h
          exact ⟨nv, rfl, by rw [hcss, hn]⟩
        · exact absurd h (by simp)
    · exact absurd h (by simp)

/-- Tier 3 returns only a link-text locator, score 90, whose exact-text
query was checked unique. -/
theorem tierLinkText_char {d : Doc} {tag text : Str} {l : Locator}
    (h : tierLinkText d tag text = some l) :
    ∃ v, l = ⟨.linkText, .s v, 90⟩ ∧
      xpathCount (.exactText (str "a") v) d = some 1 := by
  unfold tierLinkText at h
  split at h
  · split at h
    · cases h
      rename_i hx
      exact ⟨text, rfl, evalx_pos (by simp) hx⟩
    · exact absurd h (by simp)
  · exact absurd h (by simp)

/-- Tier 4 returns only a partial-link-text locator, score 85, whose
contains-text query was checked unique. -/
theorem tierPartialLink_char {d : Doc} {tag text : Str} {l : Locator}
    (h : tierPartialLink d tag text = some l) :
    ∃ v, l = ⟨.partLinkText, .s v, 85⟩ ∧
      xpathCount (.containsText (str "a") v) d = some 1 := by
  unfold tierPartialLink at h
  split at h
  · split at h
    · cases h
      rename_i hx
      exact ⟨text.take 15, rfl, evalx_pos (by simp) hx⟩
    · exact absurd h (by simp)
  · exact absurd h (by simp)

/-- The tier-5 loop returns only a CSS attribute locator, score 80,
whose selector was checked unique. -/
theorem tryAttrs_char {d : Doc} {el : ERow} {tag : Str} {l : Locator} :
    ∀ attrs, tryAttrs d el tag attrs = some (some l) →
      ∃ c, l = ⟨.css, .sel c, 80⟩ ∧ cssCount c d = some 1 := by
  intro attrs
  induction attrs with
  | nil => intro h; exact absurd h (by simp [tryAttrs])
  | cons attr rest ih =>
    intro h
    unfold tryAttrs at h
    split at h
    · exact ih h
    · cases hga : getAttr el attr with
      | none => simp only [hga] at h; exact ih h
      | some v =>
        simp only [hga] at h
        split at h
        · cases hcss : cssCount (.tagAttrEq tag attr v) d with
          | none => simp only [hcss] at h; exact absurd h (by simp)
          | some n =>
            simp only [hcss] at h
            split at h
            · rename_i hn
              cases h
              exact ⟨_, rfl, by rw [hcss, hn]⟩
            · exact ih h
        · exact ih h

/-- The tier-6 loop returns only a class locator, score 75, whose
selector was checked unique. -/
theorem tryClasses_char {d : Doc} {l : Locator} :
    ∀ cs, tryClasses d cs = some l →
      ∃ v, l = ⟨.className, .s v, 75⟩ ∧ cssCount (.classSel v) d = some 1 := by
  intro cs
  induction cs with
  | nil => intro h; exact absurd h (by simp [tryClasses])
  | cons c rest ih =>
    intro h
    unfold tryClasses at h
    cases hcss : cssCount (.classSel c) d with
    | none => simp only [hcss] at h; exact ih h
    | some n =>
      simp only [hcss] at h
      split at h
      · rename_i hn
        cases h
        exact ⟨c, rfl, by rw [hcss, hn]⟩
      · exact ih h

/-- Tier 6 wrapper: same characterization. -/
theorem tierClass_char {d : Doc} {el : ERow} {l : Locator}
    (h : tierClass d el = some l) :
    ∃ v, l = ⟨.className, .s v, 75⟩ ∧ cssCount (.classSel v) d = some 1 := by
  unfold tierClass at h
  cases hga : getAttr el (str "class") with
  | none => simp only [hga] at h; exact absurd h (by simp)
  | some cl =>
    simp only [hga] at h
    split at h
    · exact tryClasses_char _ h
    · exact absurd h (by simp)

/-- Tier 8A returns only an xpath locator — the unique exact-text query
(score 60) or its indexed variant at the element's ordinal (score 55) —
and in both cases the returned expression selects exactly one node. -/
theorem tierTextXPath_char {d : Doc} {el : ERow} {tag text : Str}
    {l : Locator} (h : tierTextXPath d el tag text = some (some l)) :
    ∃ e, l = ⟨.xpath, .xp e, l.score⟩ ∧ (l.score = 60 ∨ l.score = 55) ∧
      xpathCount e d = some 1 ∧
      ((∃ tg tx, e = .exactText tg tx) ∨ ∃ inner k, e = .indexed inner k) := by
  unfold tierTextXPath at h
  split at h
  · split at h
    · cases h
      rename_i hx
      exact ⟨_, rfl, Or.inl rfl, evalx_pos (by simp) hx, Or.inl ⟨_, _, rfl⟩⟩
    · split at h
      · cases hsel : xpathSelect (.exactText tag text) d with
        | none => simp only [hsel] at h; exact absurd h (by simp)
        | some snapshot =>
          simp only [hsel] at h
          cases hidx : findIndexAux el.path snapshot 0 with
          | none => simp only [hidx] at h; exact absurd h (by simp)
          | some i =>
            simp only [hidx] at h
            cases h
            refine ⟨_, rfl, Or.inr rfl, ?_, Or.inr ⟨_, _, rfl⟩⟩
            rename_i hcount1 hcount2
            have hone : 1 < evaluateXpath (.exactText tag text) d := hcount2
            have hlt : i < snapshot.length := by
              have := findIndexAux_lt snapshot 0 i hidx
              omega
            have hp : snapshot[i]? = some (snapshot.get ⟨i, hlt⟩) := by
              rw [← List.get?_eq_getElem?]
              exact List.get?_eq_get hlt
            unfold xpathCount xpathSelect
            rw [hsel]
            simp [hp]
      · exact absurd h (by simp)
  · exact absurd h (by simp)

/-- Strategy A returns only a unique following-sibling query at score
95. -/
theorem stratA_char {d : Doc} {tag : Str} {r : XPathExpr × Nat} :
    ∀ sibs, stratA d tag sibs = some r →
      evaluateXpath r.1 d = 1 ∧
        ∃ a t, r.1 = .followingSibling a t ∧ r.2 = 95 := by
  intro sibs
  induction sibs with
  | nil => intro h; exact absurd h (by simp [stratA])
  | cons sib rest ih =>
    intro h
    unfold stratA at h
    split at h
    · split at h
      · split at h
        · rename_i hrel
          cases h
          exact ⟨hrel, _, _, rfl, rfl⟩
        · exact ih h
      · exact ih h
    · exact ih h

/-- Strategy B returns only a unique parent-descendant query at score
92. -/
theorem stratB_char {d : Doc} {tag : Str} {r : XPathExpr × Nat} :
    ∀ sibs, stratB d tag sibs = some r →
      evaluateXpath r.1 d = 1 ∧
        ∃ a t, r.1 = .parentDescendant a t ∧ r.2 = 92 := by
  intro sibs
  induction sibs with
  | nil => intro h; exact absurd h (by simp [stratB])
  | cons sib rest ih =>
    intro h
    unfold stratB at h
    split at h
    · split at h
      · split at h
        · rename_i hrel
          cases h
          exact ⟨hrel, _, _, rfl, rfl⟩
        · exact ih h
      · exact ih h
    · exact ih h

/-- The relative builder returns only a unique compound query: Strategy
A's shape at score 95 or Strategy B's shape at score 92. -/
theorem generateRelativeXPath_char {d : Doc} {el : ERow} {r : XPathExpr × Nat}
    (h : generateRelativeXPath d el = some r) :
    evaluateXpath r.1 d = 1 ∧
      ((∃ a t, r.1 = .followingSibling a t ∧ r.2 = 95) ∨
       (∃ a t, r.1 = .parentDescendant a t ∧ r.2 = 92)) := by
  unfold generateRelativeXPath at h
  cases ha : stratA d (toLowerStr el.tagName) (prevSiblings d el) with
  | some ra =>
    simp only [ha] at h
    cases h
    obtain ⟨h1, h2⟩ := stratA_char _ ha
    exact ⟨h1, Or.inl h2⟩
  | none =>
    simp only [ha] at h
    split at h
    · obtain ⟨h1, h2⟩ := stratB_char _ h
      exact ⟨h1, Or.inr h2⟩
    · exact absurd h (by simp)

/-! ## Claim C1: uniqueness of every non-terminal locator -/

/-- C1. For every element, a candidate locator returned by the resolver
from any tier other than the terminal absolute-path tier (score 10)
selects exactly one node when its expression is re-evaluated against the
same document. -/
theorem resolver_nonterminal_unique {d : Doc} {el : ERow} {loc : Locator}
    (h : generateLocator d el = some loc) (hsc : loc.score ≠ 10) :
    locatorCount loc d = some 1 := by
  unfold generateLocator at h
  cases h1 : tierId d el with
  | none => simp only [h1] at h; exact absurd h (by simp)
  | some o1 =>
  cases o1 with
  | some l =>
    simp only [h1] at h
    cases h
    obtain ⟨v, rfl, hcss⟩ := tierId_char h1
    simpa [locatorCount] using hcss
  | none =>
  simp only [h1] at h
  cases h2 : tierName d el with
  | none => simp only [h2] at h; exact absurd h (by simp)
  | some o2 =>
  cases o2 with
  | some l =>
    simp only [h2] at h
    cases h
    obtain ⟨v, rfl, hcss⟩ := tierName_char h2
    simpa [locatorCount] using hcss
  | none =>
  simp only [h2] at h
  cases h3 : tierLinkText d (toLowerStr el.tagName) (cleanText el.textContent) with
  | some l =>
    simp only [h3] at h
    cases h
    obtain ⟨v, rfl, hx⟩ := tierLinkText_char h3
    simpa [locatorCount] using hx
  | none =>
  simp only [h3] at h
  cases h4 : tierPartialLink d (toLowerStr el.tagName) (cleanText el.textContent) with
  | some l =>
    simp only [h4] at h
    cases h
    obtain ⟨v, rfl, hx⟩ := tierPartialLink_char h4
    simpa [locatorCount] using hx
  | none =>
  simp only [h4] at h
  cases h5 : tryAttrs d el (toLowerStr el.tagName) ATTRIBUTE_PRIORITY with
  | none => simp only [h5] at h; exact absurd h (by simp)
  | some o5 =>
  cases o5 with
  | some l =>
    simp only [h5] at h
    cases h
    obtain ⟨c, rfl, hcss⟩ := tryAttrs_char _ h5
    simpa [locatorCount] using hcss
  | none =>
  simp only [h5] at h
  cases h6 : tierClass d el with
  | some l =>
    simp only [h6] at h
    cases h
    obtain ⟨v, rfl, hcss⟩ := tierClass_char h6
    simpa [locatorCount] using hcss
  | none =>
  simp only [h6] at h
  split at h
  · rename_i htag
    cases h
    simpa [locatorCount] using htag
  · cases h8 : tierTextXPath d el (toLowerStr el.tagName) (cleanText el.textContent) with
    | none => simp only [h8] at h; exact absurd h (by simp)
    | some o8 =>
    cases o8 with
    | some l =>
      simp only [h8] at h
      cases h
      obtain ⟨e, he, _, hx, _⟩ := tierTextXPath_char h8
      rw [he]
      simpa [locatorCount] using hx
    | none =>
    simp only [h8] at h
    cases h9 : generateRelativeXPath d el with
    | some r =>
      simp only [h9] at h
      cases h
      obtain ⟨h1, _⟩ := generateRelativeXPath_char h9
      simpa [locatorCount] using evalx_pos (by simp) h1
    | none =>
      simp only [h9] at h
      cases h
      exact absurd rfl hsc

/-- Witness for C1: the username input of `DocLogin` resolves through
the id tier (score 100 ≠ 10) and its selector indeed counts exactly one
node. -/
theorem resolver_nonterminal_unique_witness :
    locatorCount ⟨.id, .s (str "username"), 100⟩ DocLogin = some 1 :=
  @resolver_nonterminal_unique DocLogin rowUsername
    ⟨.id, .s (str "username"), 100⟩ (by decide) (by decide)

/-! ## Claim C5: the id tier -/

/-- C5. An element whose non-empty `id` contains no digit and neither
`ext` nor `gen`, and whose `#id` selector matches exactly one node,
resolves to the id locator with that value at score 100. -/
theorem id_tier_score_hundred {d : Doc} {el : ERow} {v : Str}
    (hattr : getAttr el (str "id") = some v) (hne : v ≠ [])
    (hdig : ¬hasChar isDigitChar v) (hext : ¬strHas (str "ext") v)
    (hgen : ¬strHas (str "gen") v)
    (hcss : cssCount (.idSel v) d = some 1) :
    generateLocator d el = some ⟨.id, .s v, 100⟩ := by
  have ht : tierId d el = some (some ⟨.id, .s v, 100⟩) := by
    unfold tierId
    simp only [hattr]
    rw [if_pos ⟨hne, hdig, hext, hgen⟩]
    simp only [hcss]
    simp
  unfold generateLocator
  simp only [ht]

/-- Witness for C5: the username input of `DocLogin`. -/
theorem id_tier_score_hundred_witness :
    generateLocator DocLogin rowUsername =
      some ⟨.id, .s (str "username"), 100⟩ :=
  @id_tier_score_hundred DocLogin rowUsername (str "username")
    (by decide) (by decide) (by decide) (by decide) (by decide) (by decide)

/-! ## Claim C2: the relative/anchor tier's returned score -/

/-- Counterexample for C2: in `DocAnchor`, the anchored input falls
through to the relative tier and Strategy A succeeds (the builder
returns the compound query with its internal score 95), yet the
candidate locator the resolver returns carries score 50, not 95. -/
theorem relative_tier_score_counterexample :
    generateRelativeXPath DocAnchor rowAnchored =
      some (.followingSibling (.exactText (str "label") (str "Email"))
        (str "input"), 95) ∧
    generateLocator DocAnchor rowAnchored =
      some ⟨.xpath,
        .xp (.followingSibling (.exactText (str "label") (str "Email"))
          (str "input")), 50⟩ :=
  ⟨by decide, by decide⟩

/-- C2 as amended: whenever the resolver's returned locator is a
Strategy-A compound query (an anchor's following-sibling query), the
resolver fixed its score at 50, discarding the builder's internal score
95. -/
theorem relative_tier_score_fifty {d : Doc} {el : ERow} {loc : Locator}
    {a : XPathExpr} {t : Str}
    (h : generateLocator d el = some loc)
    (hv : loc.value = .xp (.followingSibling a t)) :
    loc.score = 50 ∧
      generateRelativeXPath d el = some (.followingSibling a t, 95) := by
  unfold generateLocator at h
  cases h1 : tierId d el with
  | none => simp only [h1] at h; exact absurd h (by simp)
  | some o1 =>
  cases o1 with
  | some l =>
    simp only [h1] at h
    cases h
    obtain ⟨v, rfl, -⟩ := tierId_char h1
    exact absurd hv (by simp)
  | none =>
  simp only [h1] at h
  cases h2 : tierName d el with
  | none => simp only [h2] at h; exact absurd h (by simp)
  | some o2 =>
  cases o2 with
  | some l =>
    simp only [h2] at h
    cases h
    obtain ⟨v, rfl, -⟩ := tierName_char h2
    exact absurd hv (by simp)
  | none =>
  simp only [h2] at h
  cases h3 : tierLinkText d (toLowerStr el.tagName) (cleanText el.textContent) with
  | some l =>
    simp only [h3] at h
    cases h
    obtain ⟨v, rfl, -⟩ := tierLinkText_char h3
    exact absurd hv (by simp)
  | none =>
  simp only [h3] at h
  cases h4 : tierPartialLink d (toLowerStr el.tagName) (cleanText el.textContent) with
  | some l =>
    simp only [h4] at h
    cases h
    obtain ⟨v, rfl, -⟩ := tierPartialLink_char h4
    exact absurd hv (by simp)
  | none =>
  simp only [h4] at h
  cases h5 : tryAttrs d el (toLowerStr el.tagName) ATTRIBUTE_PRIORITY with
  | none => simp only [h5] at h; exact absurd h (by simp)
  | some o5 =>
  cases o5 with
  | some l =>
    simp only [h5] at h
    cases h
    obtain ⟨c, rfl, -⟩ := tryAttrs_char _ h5
    exact absurd hv (by simp)
  | none =>
  simp only [h5] at h
  cases h6 : tierClass d el with
  | some l =>
    simp only [h6] at h
    cases h
    obtain ⟨v, rfl, -⟩ := tierClass_char h6
    exact absurd hv (by simp)
  | none =>
  simp only [h6] at h
  split at h
  · cases h
    exact absurd hv (by simp)
  · cases h8 : tierTextXPath d el (toLowerStr el.tagName) (cleanText el.textContent) with
    | none => simp only [h8] at h; exact absurd h (by simp)
    | some o8 =>
    cases o8 with
    | some l =>
      simp only [h8] at h
      cases h
      obtain ⟨e, he, -, -, hshape⟩ := tierTextXPath_char h8
      rw [he] at hv
      simp only [Locator.mk.injEq] at hv
      rcases hshape with ⟨tg, tx, rfl⟩ | ⟨inner, k, rfl⟩ <;> simp at hv
    | none =>
    simp only [h8] at h
    cases h9 : generateRelativeXPath d el with
    | some r =>
      simp only [h9] at h
      cases h
      simp only [LocValue.xp.injEq] at hv
      obtain ⟨-, hsh⟩ := generateRelativeXPath_char h9
      obtain ⟨r1, r2⟩ := r
      rcases hsh with ⟨a2, t2, hr1, hr2⟩ | ⟨a2, t2, hr1, hr2⟩
      · have hv2 : r1 = XPathExpr.followingSibling a t := hv
        have hr3 : r2 = 95 := hr2
        exact ⟨rfl, by rw [hv2, hr3]⟩
      · have hv2 : r1 = XPathExpr.followingSibling a t := hv
        have hr3 : r1 = XPathExpr.parentDescendant a2 t2 := hr1
        rw [hv2] at hr3
        exact absurd hr3 (by simp)
    | none =>
      simp only [h9] at h
      cases h
      exact absurd hv (by simp)

/-- Witness for C2's amended claim, at the `DocAnchor` instance. -/
theorem relative_tier_score_fifty_witness :
    (Locator.mk .xpath
      (.xp (.followingSibling (.exactText (str "label") (str "Email"))
        (str "input"))) 50).score = 50 ∧
    generateRelativeXPath DocAnchor rowAnchored =
      some (.followingSibling (.exactText (str "label") (str "Email"))
        (str "input"), 95) :=
  @relative_tier_score_fifty DocAnchor rowAnchored
    ⟨.xpath,
      .xp (.followingSibling (.exactText (str "label") (str "Email"))
        (str "input")), 50⟩
    (.exactText (str "label") (str "Email")) (str "input")
    (by decide) (by decide)

/-! ## Claim C6: the uniqueness oracle never throws -/

/-- Counterexample for C6: the CSS-dialect count the resolver uses for
the name strategy throws (`none`) on a `name` value containing a double
quote, and the error propagates out of the resolver (`generateLocator`
returns `none`) instead of being treated as "strategy not viable". -/
theorem css_count_throws_counterexample :
    cssCount (.attrEq (str "name") badNameVal) DocBadName = none ∧
    generateLocator DocBadName rowBadName = none :=
  ⟨by decide, by decide⟩

/-- C6 as amended: the path-query count (`evaluateXpath`) never throws —
a malformed expression evaluates to 0 matches, making the calling
strategy non-viable.  (The CSS-dialect counts of the id/name/attribute
tiers are bare `querySelectorAll` calls and do propagate selector
errors; only the class tier swallows them.) -/
theorem xpath_count_malformed_zero :
    ∀ (e : XPathExpr) (d : Doc), xpathSelect e d = none →
      evaluateXpath e d = 0 := by
  intro e d h
  unfold evaluateXpath
  rw [h]

/-- Witness for C6's amended claim: an exact-text query whose text
literal contains an apostrophe is malformed and counts 0. -/
theorem xpath_count_malformed_zero_witness :
    evaluateXpath (.exactText (str "a") [aposChar]) DocEmpty = 0 :=
  xpath_count_malformed_zero (.exactText (str "a") [aposChar]) DocEmpty
    (by decide)

/-! ## Helper lemmas: generated names are lowercase -/

/-- A lowercase letter is not an uppercase letter. -/
theorem lower_not_upper {c : Char} (h : isLowerAZ c = true) :
    isUpperAZ c = false := by
  unfold isLowerAZ at h
  unfold isUpperAZ
  simp only [Bool.and_eq_true, decide_eq_true_eq] at h
  have hz : ¬(c ≤ 'Z') := fun hc => absurd (le_trans h.1 hc) (by decide)
  simp [hz]

/-- A digit is not an uppercase letter. -/
theorem digit_not_upper {c : Char} (h : isDigitChar c = true) :
    isUpperAZ c = false := by
  unfold isDigitChar at h
  unfold isUpperAZ
  simp only [Bool.and_eq_true, decide_eq_true_eq] at h
  have hz : ¬('A' ≤ c) := fun hc => absurd (le_trans hc h.2) (by decide)
  simp [hz]

/-- Lower-casing fixes a string with no uppercase letter. -/
theorem toLowerStr_fixed {s : Str} (h : ∀ c ∈ s, isUpperAZ c = false) :
    toLowerStr s = s := by
  unfold toLowerStr
  calc s.map lcChar = s.map id := by
        refine List.map_congr_left ?_
        intro c hc
        unfold lcChar
        rw [h c hc]
        rfl
    _ = s := List.map_id s

/-- The decimal rendering contains only digits, hence no uppercase
letter. -/
theorem natStrAux_no_upper :
    ∀ fuel n, ∀ c ∈ natStrAux fuel n, isUpperAZ c = false := by
  intro fuel
  induction fuel with
  | zero => intro n c hc; simp [natStrAux] at hc
  | succ f ih =>
    intro n c hc
    unfold natStrAux at hc
    split at hc
    · rename_i hn
      simp only [List.mem_singleton] at hc
      subst hc
      interval_cases n <;> decide
    · rcases List.mem_append.mp hc with hm | hm
      · exact ih _ c hm
      · simp only [List.mem_singleton] at hm
        subst hm
        have : n % 10 < 10 := Nat.mod_lt _ (by omega)
        set k := n % 10 with hk
        interval_cases k <;> decide

/-- The sanitizer emits only lowercase letters, digits and underscores —
never an uppercase letter. -/
theorem sanitize_no_upper (c : Char) :
    isUpperAZ (sanitizeNameChar c) = false := by
  unfold sanitizeNameChar
  split
  · rename_i h
    rcases Bool.or_eq_true_iff.mp h with h1 | h1
    · exact lower_not_upper h1
    · exact digit_not_upper h1
  · decide

/-- The deterministic core of a generated name has no uppercase
letter. -/
theorem varNameCore_no_upper (base : Str) :
    ∀ c ∈ varNameCore base, isUpperAZ c = false := by
  intro c hc
  unfold varNameCore stripEdgeUnderscores at hc
  rw [List.mem_reverse] at hc
  have hc2 := (List.dropWhile_sublist _).subset hc
  rw [List.mem_reverse] at hc2
  have hc3 := (List.dropWhile_sublist _).subset hc2
  obtain ⟨x, -, rfl⟩ := List.mem_map.mp hc3
  exact sanitize_no_upper x

/-- A generated variable name whose tag suffix is one of the lowercase
interactive tags has no uppercase letter. -/
theorem generateVarName_no_upper {tag : Str} (randDraw : Nat) (base : Str)
    (htag : tag ∈ INTERACTIVE_TAGS) :
    ∀ c ∈ generateVarName randDraw base tag, isUpperAZ c = false := by
  intro c hc
  unfold generateVarName at hc
  rcases List.mem_append.mp hc with hm | hm
  · split at hm
    · rcases List.mem_append.mp hm with hm2 | hm2
      · exact (show ∀ x ∈ str "element_", isUpperAZ x = false by decide) c hm2
      · exact natStrAux_no_upper _ _ c hm2
    · exact varNameCore_no_upper base c hm
  · simp only [List.mem_cons] at hm
    rcases hm with rfl | hm
    · decide
    · fin_cases htag
      · exact (show ∀ x ∈ str "input", isUpperAZ x = false by decide) c hm
      · exact (show ∀ x ∈ str "button", isUpperAZ x = false by decide) c hm
      · exact (show ∀ x ∈ str "a", isUpperAZ x = false by decide) c hm
      · exact (show ∀ x ∈ str "select", isUpperAZ x = false by decide) c hm
      · exact (show ∀ x ∈ str "textarea", isUpperAZ x = false by decide) c hm

/-! ## Claim C4: page naming for `/products/42` -/

/-- Counterexample for C4: for the URL
`https://shop.example.com/products/42` with title `Acme Store`, the
derived name is `ProductsPage` — taken from the remaining path segment
`products` — and differs from the title-based name the claim predicts. -/
theorem page_name_products_counterexample :
    derivePageName urlProducts (str "Acme Store") = str "ProductsPage" ∧
    derivePageName urlProducts (str "Acme Store") ≠
      finishPageName (titleStrategy (str "Acme Store")) :=
  ⟨by decide, by decide⟩

/-- C4 as amended: the purely numeric segment `42` is filtered out, and
the name derives from the last remaining meaningful segment `products`
(`ProductsPage`), independently of the title; the title fallback is
reached only when no meaningful segment remains. -/
theorem page_name_products_amended :
    ∀ title : Str, derivePageName urlProducts title = str "ProductsPage" := by
  intro title
  unfold derivePageName
  rw [show parseURL urlProducts = some (str "/products/42") from by decide]
  show finishPageName (rawPageName (str "/products/42") title) =
    str "ProductsPage"
  unfold rawPageName
  rw [if_pos (show meaningfulSegments (str "/products/42") ≠ [] from by decide)]
  decide

/-! ## Helper lemmas: the scraping loop -/

/-- The scraping loop preserves name-uniqueness of the accumulator: the
duplicate guard drops every element whose generated name already
occurs. -/
theorem scrape_nodup {d : Doc} {rnd ids : Nat → Nat} :
    ∀ (rows : List ERow) (acc : List ElementDefinition) (r i : Nat)
      (out : List ElementDefinition × Nat × Nat),
      scrapeElems d rnd ids rows acc r i = some out →
      (acc.map (·.name)).Nodup → (out.1.map (·.name)).Nodup := by
  intro rows
  induction rows with
  | nil =>
    intro acc r i out h hacc
    unfold scrapeElems at h
    cases h
    exact hacc
  | cons el rest ih =>
    intro acc r i out h hacc
    unfold scrapeElems at h
    split at h
    · exact ih _ _ _ _ h hacc
    · cases hloc : generateLocator d el with
      | none => simp only [hloc] at h; exact absurd h (by simp)
      | some loc =>
        simp only [hloc] at h
        cases hfind : acc.find?
            (fun e2 => decide (e2.name = genNameOf rnd r el)) with
        | some e2 => simp only [hfind] at h; exact ih _ _ _ _ h hacc
        | none =>
          simp only [hfind] at h
          refine ih _ _ _ _ h ?_
          rw [List.map_append]
          refine List.Nodup.append hacc (by simp) ?_
          intro a ha hb
          simp only [mkElemDef, List.map_cons, List.map_nil,
            List.mem_singleton] at hb
          obtain ⟨x, hx, rfl⟩ := List.mem_map.mp ha
          have hne := List.find?_eq_none.mp hfind x hx
          simp only [decide_eq_true_eq] at hne
          exact hne hb

/-- Every element definition the scraping loop emits comes from a
non-hidden row of the scanned list, with a successfully resolved
locator. -/
theorem scrape_origin {d : Doc} {rnd ids : Nat → Nat} :
    ∀ (rows : List ERow) (acc : List ElementDefinition) (r i : Nat)
      (out : List ElementDefinition × Nat × Nat),
      scrapeElems d rnd ids rows acc r i = some out →
      ∀ e ∈ out.1, e ∈ acc ∨
        ∃ el, el ∈ rows ∧ isHiddenInput el = false ∧
          ∃ loc idn nm, generateLocator d el = some loc ∧
            e = mkElemDef idn nm el loc := by
  intro rows
  induction rows with
  | nil =>
    intro acc r i out h e he
    unfold scrapeElems at h
    cases h
    exact Or.inl he
  | cons el rest ih =>
    intro acc r i out h e he
    unfold scrapeElems at h
    split at h
    · rcases ih _ _ _ _ h e he with hi | ⟨el2, hm, hrest⟩
      · exact Or.inl hi
      · exact Or.inr ⟨el2, List.mem_cons_of_mem _ hm, hrest⟩
    · rename_i hhide
      cases hloc : generateLocator d el with
      | none => simp only [hloc] at h; exact absurd h (by simp)
      | some loc =>
        simp only [hloc] at h
        cases hfind : acc.find?
            (fun e2 => decide (e2.name = genNameOf rnd r el)) with
        | some e2 =>
          simp only [hfind] at h
          rcases ih _ _ _ _ h e he with hi | ⟨el2, hm, hrest⟩
          · exact Or.inl hi
          · exact Or.inr ⟨el2, List.mem_cons_of_mem _ hm, hrest⟩
        | none =>
          simp only [hfind] at h
          rcases ih _ _ _ _ h e he with hi | ⟨el2, hm, hrest⟩
          · rcases List.mem_append.mp hi with hi2 | hi2
            · exact Or.inl hi2
            · simp only [List.mem_singleton] at hi2
              subst hi2
              exact Or.inr ⟨el, List.mem_cons_self _ _,
                Bool.of_not_eq_true hhide, loc, _, _, hloc, rfl⟩
          · exact Or.inr ⟨el2, List.mem_cons_of_mem _ hm, hrest⟩

/-- Every name the scraping loop emits over interactive rows contains no
uppercase letter. -/
theorem scrape_names_no_upper {d : Doc} {rnd ids : Nat → Nat} :
    ∀ (rows : List ERow) (acc : List ElementDefinition) (r i : Nat)
      (out : List ElementDefinition × Nat × Nat),
      scrapeElems d rnd ids rows acc r i = some out →
      (∀ el ∈ rows, toLowerStr el.tagName ∈ INTERACTIVE_TAGS) →
      (∀ e ∈ acc, ∀ c ∈ e.name, isUpperAZ c = false) →
      ∀ e ∈ out.1, ∀ c ∈ e.name, isUpperAZ c = false := by
  intro rows
  induction rows with
  | nil =>
    intro acc r i out h _ hacc
    unfold scrapeElems at h
    cases h
    exact hacc
  | cons el rest ih =>
    intro acc r i out h hrows hacc
    unfold scrapeElems at h
    split at h
    · exact ih _ _ _ _ h (fun x hx => hrows x (List.mem_cons_of_mem _ hx)) hacc
    · cases hloc : generateLocator d el with
      | none => simp only [hloc] at h; exact absurd h (by simp)
      | some loc =>
        simp only [hloc] at h
        cases hfind : acc.find?
            (fun e2 => decide (e2.name = genNameOf rnd r el)) with
        | some e2 =>
          simp only [hfind] at h
          exact ih _ _ _ _ h (fun x hx => hrows x (List.mem_cons_of_mem _ hx)) hacc
        | none =>
          simp only [hfind] at h
          refine ih _ _ _ _ h
            (fun x hx => hrows x (List.mem_cons_of_mem _ hx)) ?_
          intro e2 he2
          rcases List.mem_append.mp he2 with hm | hm
          · exact hacc e2 hm
          · simp only [List.mem_singleton] at hm
            subst hm
            exact generateVarName_no_upper _ _
              (hrows el (List.mem_cons_self _ _))

/-! ## Helper lemmas: synthesized tests -/

/-- Length of a login-test name. -/
theorem loginTestName_len (s : Str) :
    (loginTestName s).length = s.length + 16 := by
  unfold loginTestName
  rw [List.length_append, List.length_append,
    show (str "test_").length = 5 from by decide,
    show (str "_login_flow").length = 11 from by decide]
  omega

/-- Length of a search-test name. -/
theorem searchTestName_len (s : Str) :
    (searchTestName s).length = s.length + 12 := by
  unfold searchTestName
  rw [List.length_append, List.length_append,
    show (str "test_").length = 5 from by decide,
    show (str "_search").length = 7 from by decide]
  omega

/-- Length of a fallback-test name. -/
theorem fallbackTestName_len (s : Str) :
    (fallbackTestName s).length = s.length + 24 := by
  unfold fallbackTestName
  rw [List.length_append, List.length_append,
    show (str "test_").length = 5 from by decide,
    show (str "_basic_interactions").length = 19 from by decide]
  omega

/-- The three synthesized test names are pairwise distinct for one
page. -/
theorem login_ne_search (s : Str) : loginTestName s ≠ searchTestName s := by
  intro h
  have := congrArg List.length h
  rw [loginTestName_len, searchTestName_len] at this
  omega

/-- Login and fallback names differ. -/
theorem login_ne_fallback (s : Str) :
    loginTestName s ≠ fallbackTestName s := by
  intro h
  have := congrArg List.length h
  rw [loginTestName_len, fallbackTestName_len] at this
  omega

/-- Search and fallback names differ. -/
theorem search_ne_fallback (s : Str) :
    searchTestName s ≠ fallbackTestName s := by
  intro h
  have := congrArg List.length h
  rw [searchTestName_len, fallbackTestName_len] at this
  omega

/-- The login push is empty exactly when the detection condition
fails. -/
theorem loginTests_eq_nil_iff {ids : Nat → Nat} {i : Nat} {snake : Str}
    {es : List ElementDefinition} :
    loginTests ids i snake es = [] ↔ loginDetectedB es = false := by
  unfold loginTests loginDetectedB
  cases hu : es.filter userLikeB with
  | nil => simp
  | cons u ur =>
    cases hp : es.filter passLikeB with
    | nil => simp
    | cons p pr =>
      cases hs : es.filter submitLikeB with
      | nil => simp
      | cons s sr => simp

/-- The search push is empty exactly when the detection condition
fails. -/
theorem searchTests_eq_nil_iff {ids : Nat → Nat} {i : Nat} {snake : Str}
    {es : List ElementDefinition} :
    searchTests ids i snake es = [] ↔ searchDetectedB es = false := by
  unfold searchTests searchDetectedB
  cases hs : es.filter searchLikeB with
  | nil => simp
  | cons s sr => simp

/-- Every member of the login push carries the login name, and its steps
are the four ordered login steps over the first matching elements. -/
theorem loginTests_shape {ids : Nat → Nat} {i : Nat} {snake : Str}
    {es : List ElementDefinition} :
    ∀ t ∈ loginTests ids i snake es, t.name = loginTestName snake ∧
      ∃ u pw sb, (es.filter userLikeB).head? = some u ∧
        (es.filter passLikeB).head? = some pw ∧
        (es.filter submitLikeB).head? = some sb ∧
        t.steps.map stepData = loginStepsData u.name pw.name sb.name := by
  intro t ht
  unfold loginTests at ht
  cases hu : es.filter userLikeB with
  | nil => rw [hu] at ht; simp at ht
  | cons u ur =>
    rw [hu] at ht
    cases hp : es.filter passLikeB with
    | nil => rw [hp] at ht; simp at ht
    | cons p pr =>
      rw [hp] at ht
      cases hs : es.filter submitLikeB with
      | nil => rw [hs] at ht; simp at ht
      | cons s sr =>
        rw [hs] at ht
        simp only [List.mem_singleton] at ht
        subst ht
        exact ⟨rfl, u, p, s, rfl, rfl, rfl, by simp [stepData, loginStepsData]⟩

/-- Every member of the search push carries the search name. -/
theorem searchTests_name {ids : Nat → Nat} {i : Nat} {snake : Str}
    {es : List ElementDefinition} :
    ∀ t ∈ searchTests ids i snake es, t.name = searchTestName snake := by
  intro t ht
  unfold searchTests at ht
  cases hs : es.filter searchLikeB with
  | nil => rw [hs] at ht; simp at ht
  | cons s sr =>
    rw [hs] at ht
    simp only [List.mem_singleton] at ht
    subst ht
    rfl

/-- Every member of the fallback push carries the fallback name. -/
theorem fallbackTests_name {ids : Nat → Nat} {i : Nat} {snake : Str}
    {es : List ElementDefinition} :
    ∀ t ∈ fallbackTests ids i snake es, t.name = fallbackTestName snake := by
  intro t ht
  unfold fallbackTests at ht
  simp only [List.mem_singleton] at ht
  subst ht
  rfl

/-- A filter is non-empty exactly when some member satisfies the
predicate. -/
theorem filter_ne_nil_iff {α : Type} (p : α → Bool) (l : List α) :
    l.filter p ≠ [] ↔ ∃ x ∈ l, p x = true := by
  constructor
  · intro h
    obtain ⟨x, hx⟩ := List.exists_mem_of_ne_nil _ h
    obtain ⟨h1, h2⟩ := List.mem_filter.mp hx
    exact ⟨x, h1, h2⟩
  · rintro ⟨x, h1, h2⟩ hnil
    have hm := List.mem_filter.mpr ⟨h1, h2⟩
    rw [hnil] at hm
    simp at hm

/-- The login push is non-empty exactly when all three keyword filters
are. -/
theorem loginTests_ne_nil_iff {ids : Nat → Nat} {i : Nat} {snake : Str}
    {es : List ElementDefinition} :
    loginTests ids i snake es ≠ [] ↔
      (es.filter userLikeB ≠ [] ∧ es.filter passLikeB ≠ [] ∧
       es.filter submitLikeB ≠ []) := by
  unfold loginTests
  cases hu : es.filter userLikeB with
  | nil => simp
  | cons u ur =>
    cases hp : es.filter passLikeB with
    | nil => simp
    | cons p pr =>
      cases hs : es.filter submitLikeB with
      | nil => simp
      | cons s sr => simp

/-! ## Helper lemmas: determinism modulo entity ids -/

/-- The id-erased view determines every keyword filter: filtering two
id-erased-equal lists gives id-erased-equal results. -/
theorem filter_data_eq {p : ElementDefinition → Bool}
    (hp : ∀ a b, elemData a = elemData b → p a = p b) :
    ∀ (es1 es2 : List ElementDefinition),
      es1.map elemData = es2.map elemData →
      (es1.filter p).map elemData = (es2.filter p).map elemData := by
  intro es1
  induction es1 with
  | nil =>
    intro es2 h
    cases es2 with
    | nil => rfl
    | cons b bs => simp at h
  | cons a as ih =>
    intro es2 h
    cases es2 with
    | nil => simp at h
    | cons b bs =>
      simp only [List.map_cons, List.cons.injEq] at h
      obtain ⟨h1, h2⟩ := h
      rw [List.filter_cons, List.filter_cons, hp a b h1]
      cases hb : p b with
      | false => simp [ih bs h2]
      | true => simp [h1, ih bs h2]

/-- The duplicate-name guard sees only names, so it agrees on
id-erased-equal accumulators. -/
theorem find_name_eq (nm : Str) :
    ∀ (acc1 acc2 : List ElementDefinition),
      acc1.map elemData = acc2.map elemData →
      ((acc1.find? (fun e2 => decide (e2.name = nm))).isSome =
       (acc2.find? (fun e2 => decide (e2.name = nm))).isSome) := by
  intro acc1
  induction acc1 with
  | nil =>
    intro acc2 h
    cases acc2 with
    | nil => rfl
    | cons b bs => simp at h
  | cons a as ih =>
    intro acc2 h
    cases acc2 with
    | nil => simp at h
    | cons b bs =>
      simp only [List.map_cons, List.cons.injEq] at h
      obtain ⟨h1, h2⟩ := h
      have hn : a.name = b.name := congrArg ElemData.name h1
      rw [List.find?_cons, List.find?_cons, hn]
      cases hb : decide (b.name = nm) with
      | false => exact ih bs h2
      | true => rfl

/-- The scraping loop is deterministic modulo entity ids when every
scanned row's normalized name base is non-empty (so the randomized
fallback name is never used). -/
theorem scrape_data_eq {d : Doc} {rnd1 ids1 rnd2 ids2 : Nat → Nat} :
    ∀ (rows : List ERow) (acc1 acc2 : List ElementDefinition)
      (r1 i1 r2 i2 : Nat),
      (∀ el ∈ rows, varNameCore (cleanText (nameBaseOf el)) ≠ []) →
      acc1.map elemData = acc2.map elemData →
      (scrapeElems d rnd1 ids1 rows acc1 r1 i1).map (fun s => s.1.map elemData) =
      (scrapeElems d rnd2 ids2 rows acc2 r2 i2).map
        (fun s => s.1.map elemData) := by
  intro rows
  induction rows with
  | nil =>
    intro acc1 acc2 r1 i1 r2 i2 _ hacc
    unfold scrapeElems
    simpa using hacc
  | cons el rest ih =>
    intro acc1 acc2 r1 i1 r2 i2 hbase hacc
    have hcore : varNameCore (cleanText (nameBaseOf el)) ≠ [] :=
      hbase el (List.mem_cons_self _ _)
    have hbase2 : ∀ x ∈ rest, varNameCore (cleanText (nameBaseOf x)) ≠ [] :=
      fun x hx => hbase x (List.mem_cons_of_mem _ hx)
    have hnm : ∀ (r r' : Nat), genNameOf rnd1 r el = genNameOf rnd2 r' el := by
      intro r r'
      unfold genNameOf generateVarName
      rw [if_neg hcore, if_neg hcore]
    unfold scrapeElems
    split
    · exact ih _ _ _ _ _ _ hbase2 hacc
    · cases hloc : generateLocator d el with
      | none => rfl
      | some loc =>
        have hfind := find_name_eq (genNameOf rnd1 r1 el) acc1 acc2 hacc
        rw [hnm r1 r2] at hfind
        cases hf1 : acc1.find?
            (fun e2 => decide (e2.name = genNameOf rnd1 r1 el)) with
        | some e1 =>
          rw [hnm r1 r2] at hf1
          cases hf2 : acc2.find?
              (fun e2 => decide (e2.name = genNameOf rnd2 r2 el)) with
          | some e2 => exact ih _ _ _ _ _ _ hbase2 hacc
          | none =>
            rw [hf1, hf2] at hfind
            simp at hfind
        | none =>
          rw [hnm r1 r2] at hf1
          cases hf2 : acc2.find?
              (fun e2 => decide (e2.name = genNameOf rnd2 r2 el)) with
          | some e2 =>
            rw [hf1, hf2] at hfind
            simp at hfind
          | none =>
            refine ih _ _ _ _ _ _ hbase2 ?_
            rw [List.map_append, List.map_append, hacc]
            simp only [List.map_cons, List.map_nil, mkElemDef, elemData]
            rw [hnm r1 r2]

/-- The four flow filters look only at names. -/
theorem userLikeB_data {a b : ElementDefinition} (h : elemData a = elemData b) :
    userLikeB a = userLikeB b := by
  unfold userLikeB
  rw [show a.name = b.name from congrArg ElemData.name h]

/-- `passLikeB` looks only at names. -/
theorem passLikeB_data {a b : ElementDefinition} (h : elemData a = elemData b) :
    passLikeB a = passLikeB b := by
  unfold passLikeB
  rw [show a.name = b.name from congrArg ElemData.name h]

/-- `submitLikeB` looks only at names. -/
theorem submitLikeB_data {a b : ElementDefinition}
    (h : elemData a = elemData b) : submitLikeB a = submitLikeB b := by
  unfold submitLikeB
  rw [show a.name = b.name from congrArg ElemData.name h]

/-- `searchLikeB` looks only at names. -/
theorem searchLikeB_data {a b : ElementDefinition}
    (h : elemData a = elemData b) : searchLikeB a = searchLikeB b := by
  unfold searchLikeB
  rw [show a.name = b.name from congrArg ElemData.name h]

/-- The login push is deterministic modulo entity ids. -/
theorem loginTests_data_eq {ids1 ids2 : Nat → Nat} {i1 i2 : Nat} {snake : Str}
    {es1 es2 : List ElementDefinition}
    (h : es1.map elemData = es2.map elemData) :
    (loginTests ids1 i1 snake es1).map testData =
      (loginTests ids2 i2 snake es2).map testData := by
  have hu := filter_data_eq (fun a b => userLikeB_data) es1 es2 h
  have hp := filter_data_eq (fun a b => passLikeB_data) es1 es2 h
  have hs := filter_data_eq (fun a b => submitLikeB_data) es1 es2 h
  unfold loginTests
  cases hu1 : es1.filter userLikeB with
  | nil =>
    rw [hu1] at hu
    cases hu2 : es2.filter userLikeB with
    | nil => rfl
    | cons b bs => rw [hu2] at hu; simp at hu
  | cons u1 ur1 =>
    rw [hu1] at hu
    cases hu2 : es2.filter userLikeB with
    | nil => rw [hu2] at hu; simp at hu
    | cons u2 ur2 =>
      rw [hu2] at hu
      simp only [List.map_cons, List.cons.injEq] at hu
      cases hp1 : es1.filter passLikeB with
      | nil =>
        rw [hp1] at hp
        cases hp2 : es2.filter passLikeB with
        | nil => rfl
        | cons b bs => rw [hp2] at hp; simp at hp
      | cons p1 pr1 =>
        rw [hp1] at hp
        cases hp2 : es2.filter passLikeB with
        | nil => rw [hp2] at hp; simp at hp
        | cons p2 pr2 =>
          rw [hp2] at hp
          simp only [List.map_cons, List.cons.injEq] at hp
          cases hs1 : es1.filter submitLikeB with
          | nil =>
            rw [hs1] at hs
            cases hs2 : es2.filter submitLikeB with
            | nil => rfl
            | cons b bs => rw [hs2] at hs; simp at hs
          | cons s1 sr1 =>
            rw [hs1] at hs
            cases hs2 : es2.filter submitLikeB with
            | nil => rw [hs2] at hs; simp at hs
            | cons s2 sr2 =>
              rw [hs2] at hs
              simp only [List.map_cons, List.cons.injEq] at hs
              simp only [List.map_cons, List.map_nil, testData, stepData]
              rw [show u1.name = u2.name from congrArg ElemData.name hu.1,
                show p1.name = p2.name from congrArg ElemData.name hp.1,
                show s1.name = s2.name from congrArg ElemData.name hs.1]

/-- The search push is deterministic modulo entity ids. -/
theorem searchTests_data_eq {ids1 ids2 : Nat → Nat} {i1 i2 : Nat} {snake : Str}
    {es1 es2 : List ElementDefinition}
    (h : es1.map elemData = es2.map elemData) :
    (searchTests ids1 i1 snake es1).map testData =
      (searchTests ids2 i2 snake es2).map testData := by
  have hq := filter_data_eq (fun a b => searchLikeB_data) es1 es2 h
  unfold searchTests
  cases hq1 : es1.filter searchLikeB with
  | nil =>
    rw [hq1] at hq
    cases hq2 : es2.filter searchLikeB with
    | nil => rfl
    | cons b bs => rw [hq2] at hq; simp at hq
  | cons q1 qr1 =>
    rw [hq1] at hq
    cases hq2 : es2.filter searchLikeB with
    | nil => rw [hq2] at hq; simp at hq
    | cons q2 qr2 =>
      rw [hq2] at hq
      simp only [List.map_cons, List.cons.injEq] at hq
      simp only [List.map_cons, List.map_nil, testData, stepData]
      rw [show q1.name = q2.name from congrArg ElemData.name hq.1]

/-- The fallback steps are deterministic modulo entity ids. -/
theorem fbSteps_data_eq {ids1 ids2 : Nat → Nat} :
    ∀ (l1 l2 : List ElementDefinition) (i1 i2 : Nat),
      l1.map elemData = l2.map elemData →
      (fbSteps ids1 l1 i1).map stepData = (fbSteps ids2 l2 i2).map stepData := by
  intro l1
  induction l1 with
  | nil =>
    intro l2 i1 i2 h
    cases l2 with
    | nil => rfl
    | cons b bs => simp at h
  | cons a as ih =>
    intro l2 i1 i2 h
    cases l2 with
    | nil => simp at h
    | cons b bs =>
      simp only [List.map_cons, List.cons.injEq] at h
      obtain ⟨h1, h2⟩ := h
      unfold fbSteps
      simp only [List.map_cons, stepData]
      rw [show a.name = b.name from congrArg ElemData.name h1]
      exact congrArg (List.cons _) (ih bs _ _ h2)

/-- The whole synthesized test list is deterministic modulo entity
ids. -/
theorem allTests_data_eq {ids1 ids2 : Nat → Nat} {i1 i2 : Nat} {snake : Str}
    {es1 es2 : List ElementDefinition}
    (h : es1.map elemData = es2.map elemData) :
    (allTests ids1 i1 snake es1).map testData =
      (allTests ids2 i2 snake es2).map testData := by
  have hl := @loginTests_data_eq ids1 ids2 i1 i2 snake es1 es2 h
  have hsr := @searchTests_data_eq ids1 ids2 (loginIdx ids1 i1 snake es1)
    (loginIdx ids2 i2 snake es2) snake es1 es2 h
  have hliff : loginTests ids1 i1 snake es1 = [] ↔
      loginTests ids2 i2 snake es2 = [] := by
    constructor
    · intro hx
      rw [hx] at hl
      exact List.map_eq_nil_iff.mp hl.symm
    · intro hx
      rw [hx] at hl
      exact List.map_eq_nil_iff.mp hl
  have hsiff : searchTests ids1 (loginIdx ids1 i1 snake es1) snake es1 = [] ↔
      searchTests ids2 (loginIdx ids2 i2 snake es2) snake es2 = [] := by
    constructor
    · intro hx
      rw [hx] at hsr
      exact List.map_eq_nil_iff.mp hsr.symm
    · intro hx
      rw [hx] at hsr
      exact List.map_eq_nil_iff.mp hsr
  have hesiff : es1 = [] ↔ es2 = [] := by
    constructor
    · intro hx
      rw [hx] at h
      exact List.map_eq_nil_iff.mp h.symm
    · intro hx
      rw [hx] at h
      exact List.map_eq_nil_iff.mp h
  have hfb : (fallbackTests ids1
        (searchIdx ids1 (loginIdx ids1 i1 snake es1) snake es1) snake
        es1).map testData =
      (fallbackTests ids2
        (searchIdx ids2 (loginIdx ids2 i2 snake es2) snake es2) snake
        es2).map testData := by
    unfold fallbackTests
    simp only [List.map_cons, List.map_nil, testData]
    rw [fbSteps_data_eq (es1.take 4) (es2.take 4) _ _
      (by rw [List.map_take, List.map_take, h])]
  unfold allTests
  by_cases hcond : loginTests ids1 i1 snake es1 ++
      searchTests ids1 (loginIdx ids1 i1 snake es1) snake es1 = [] ∧
      es1 ≠ []
  · have hcond2 : loginTests ids2 i2 snake es2 ++
        searchTests ids2 (loginIdx ids2 i2 snake es2) snake es2 = [] ∧
        es2 ≠ [] := by
      obtain ⟨hc1, hc2⟩ := hcond
      obtain ⟨ha, hb⟩ := List.append_eq_nil.mp hc1
      refine ⟨?_, fun hx => hc2 (hesiff.mpr hx)⟩
      rw [hliff.mp ha, hsiff.mp hb]
      rfl
    rw [if_pos hcond, if_pos hcond2]
    rw [List.map_append, List.map_append, List.map_append, List.map_append]
    rw [hl, hsr, hfb]
  · have hcond2 : ¬(loginTests ids2 i2 snake es2 ++
        searchTests ids2 (loginIdx ids2 i2 snake es2) snake es2 = [] ∧
        es2 ≠ []) := by
      intro hx
      obtain ⟨hc1, hc2⟩ := hx
      obtain ⟨ha, hb⟩ := List.append_eq_nil.mp hc1
      refine hcond ⟨?_, fun hy => hc2 (hesiff.mp hy)⟩
      rw [hliff.mpr ha, hsiff.mpr hb]
      rfl
    rw [if_neg hcond, if_neg hcond2]
    rw [List.map_append, List.map_append, List.map_append, List.map_append]
    rw [hl, hsr]

/-! ## Claim C3: determinism modulo entity ids -/

/-- Counterexample for C3: on a page whose only interactive element has
`placeholder="???"` — a name base that normalizes to the empty string —
two runs of the inference entry point on identical `html`/`sourceUrl`
give different element names (the randomized `element_NNN` fallback),
so the results differ even after erasing the opaque entity ids. -/
theorem infer_random_name_counterexample :
    (analyzeDomAndGenerateSchema DocRandomName urlRandomName (fun _ => 1)
        (fun n => n)).map resultData ≠
      (analyzeDomAndGenerateSchema DocRandomName urlRandomName (fun _ => 2)
        (fun n => n)).map resultData := by
  decide

/-- C3 as amended: whenever every scanned element's normalized name base
is non-empty (so the randomized fallback name is never drawn), two runs
of the inference entry point on identical `html`/`sourceUrl` agree on
the page name, the element names, the locator kinds/values and the step
sequences — i.e. on everything except the opaque entity ids. -/
theorem infer_deterministic_modulo_ids (d : Doc) (url : Str)
    (rnd1 ids1 rnd2 ids2 : Nat → Nat)
    (hbase : ∀ el ∈ selectInteractive d,
      varNameCore (cleanText (nameBaseOf el)) ≠ []) :
    (analyzeDomAndGenerateSchema d url rnd1 ids1).map resultData =
      (analyzeDomAndGenerateSchema d url rnd2 ids2).map resultData := by
  have hscrape := @scrape_data_eq d rnd1 ids1 rnd2 ids2
    (selectInteractive d) [] [] 0 0 0 0 hbase rfl
  unfold analyzeDomAndGenerateSchema
  cases h1 : scrapeElems d rnd1 ids1 (selectInteractive d) [] 0 0 with
  | none =>
    cases h2 : scrapeElems d rnd2 ids2 (selectInteractive d) [] 0 0 with
    | none => rfl
    | some s2 => rw [h1, h2] at hscrape; simp at hscrape
  | some s1 =>
    cases h2 : scrapeElems d rnd2 ids2 (selectInteractive d) [] 0 0 with
    | none => rw [h1, h2] at hscrape; simp at hscrape
    | some s2 =>
      rw [h1, h2] at hscrape
      simp only [Option.map_some', Option.some.injEq] at hscrape
      simp only [Option.map_some', Option.some.injEq, resultData, pageData,
        List.map_cons, List.map_nil]
      rw [hscrape, @allTests_data_eq ids1 ids2 s1.2.2 s2.2.2
        (snakeCase (derivePageName url d.title)) s1.1 s2.1 hscrape]

/-- Witness for C3's amended claim: two runs over `DocLogin` with
different random and id streams agree modulo entity ids. -/
theorem infer_deterministic_modulo_ids_witness :
    (analyzeDomAndGenerateSchema DocLogin urlLogin (fun _ => 1)
        (fun n => n + 100)).map resultData =
      (analyzeDomAndGenerateSchema DocLogin urlLogin (fun _ => 2)
        (fun n => n)).map resultData :=
  infer_deterministic_modulo_ids DocLogin urlLogin _ _ _ _ (by decide)

/-! ## Claim C7: the login flow -/

/-- C7. A login test is emitted if and only if the page's element list
has a name containing `user`/`email`/`login`, one containing `pass` and
one containing `submit`/`login`/`sign_in` (case-insensitive containment,
which on the all-lowercase generated names coincides with the source's
check); the emitted test's steps are exactly the four ordered steps over
the first matching elements: fill username, fill password, click submit,
assert the `dashboard` marker. -/
theorem login_flow_iff (d : Doc) (url : Str) (rnd ids : Nat → Nat)
    (res : AnalyzeResult)
    (h : analyzeDomAndGenerateSchema d url rnd ids = some res) :
    ∀ p ∈ res.pages,
      ((∃ t ∈ res.tests, t.name = loginTestName (snakeCase p.name)) ↔
        ((∃ e ∈ p.elements, ciHas (str "user") e.name ∨
            ciHas (str "email") e.name ∨ ciHas (str "login") e.name) ∧
         (∃ e ∈ p.elements, ciHas (str "pass") e.name) ∧
         (∃ e ∈ p.elements, ciHas (str "submit") e.name ∨
            ciHas (str "login") e.name ∨ ciHas (str "sign_in") e.name))) ∧
      (∀ t ∈ res.tests, t.name = loginTestName (snakeCase p.name) →
        ∃ u pw sb, (p.elements.filter userLikeB).head? = some u ∧
          (p.elements.filter passLikeB).head? = some pw ∧
          (p.elements.filter submitLikeB).head? = some sb ∧
          t.steps.map stepData = loginStepsData u.name pw.name sb.name) := by
  intro p hp
  unfold analyzeDomAndGenerateSchema at h
  cases hs : scrapeElems d rnd ids (selectInteractive d) [] 0 0 with
  | none => rw [hs] at h; exact absurd h (by simp)
  | some s =>
    rw [hs] at h
    simp only [Option.some.injEq] at h
    subst h
    simp only [List.mem_singleton] at hp
    subst hp
    have hrows : ∀ el ∈ selectInteractive d,
        toLowerStr el.tagName ∈ INTERACTIVE_TAGS := by
      intro el hel
      rw [selectInteractive, List.mem_filter] at hel
      simpa using hel.2
    have hlow : ∀ e ∈ s.1, ∀ c ∈ e.name, isUpperAZ c = false :=
      scrape_names_no_upper _ _ _ _ _ hs hrows (by simp)
    have hci : ∀ tok : Str, toLowerStr tok = tok →
        ∀ e ∈ s.1, ciHas tok e.name = strHas tok e.name := by
      intro tok htok e he
      unfold ciHas
      rw [htok, toLowerStr_fixed (hlow e he)]
    have huser : ∀ e ∈ s.1,
        ((ciHas (str "user") e.name ∨ ciHas (str "email") e.name ∨
          ciHas (str "login") e.name) ↔ userLikeB e = true) := by
      intro e he
      unfold userLikeB
      rw [hci (str "user") (by decide) e he, hci (str "email") (by decide) e he,
        hci (str "login") (by decide) e he]
      simp [Bool.or_eq_true, or_assoc]
    have hpass : ∀ e ∈ s.1,
        (ciHas (str "pass") e.name ↔ passLikeB e = true) := by
      intro e he
      unfold passLikeB
      rw [hci (str "pass") (by decide) e he]
    have hsubmit : ∀ e ∈ s.1,
        ((ciHas (str "submit") e.name ∨ ciHas (str "login") e.name ∨
          ciHas (str "sign_in") e.name) ↔ submitLikeB e = true) := by
      intro e he
      unfold submitLikeB
      rw [hci (str "submit") (by decide) e he,
        hci (str "login") (by decide) e he,
        hci (str "sign_in") (by decide) e he]
      simp [Bool.or_eq_true, or_assoc]
    constructor
    · constructor
      · rintro ⟨t, ht, hname⟩
        unfold allTests at ht
        rcases List.mem_append.mp ht with hm | hm
        · rcases List.mem_append.mp hm with hm2 | hm2
          · have hne : loginTests ids s.2.2
                (snakeCase (derivePageName url d.title)) s.1 ≠ [] :=
              List.ne_nil_of_mem hm2
            obtain ⟨h1, h2, h3⟩ := loginTests_ne_nil_iff.mp hne
            refine ⟨?_, ?_, ?_⟩
            · obtain ⟨x, hx1, hx2⟩ := (filter_ne_nil_iff _ _).mp h1
              exact ⟨x, hx1, (huser x hx1).mpr hx2⟩
            · obtain ⟨x, hx1, hx2⟩ := (filter_ne_nil_iff _ _).mp h2
              exact ⟨x, hx1, (hpass x hx1).mpr hx2⟩
            · obtain ⟨x, hx1, hx2⟩ := (filter_ne_nil_iff _ _).mp h3
              exact ⟨x, hx1, (hsubmit x hx1).mpr hx2⟩
          · have := searchTests_name t hm2
            rw [this] at hname
            exact absurd hname.symm (login_ne_search _)
        · split at hm
          · have := fallbackTests_name t hm
            rw [this] at hname
            exact absurd hname.symm (login_ne_fallback _)
          · simp at hm
      · rintro ⟨⟨x1, hx1, ho1⟩, ⟨x2, hx2, ho2⟩, ⟨x3, hx3, ho3⟩⟩
        have h1 : s.1.filter userLikeB ≠ [] :=
          (filter_ne_nil_iff _ _).mpr ⟨x1, hx1, (huser x1 hx1).mp ho1⟩
        have h2 : s.1.filter passLikeB ≠ [] :=
          (filter_ne_nil_iff _ _).mpr ⟨x2, hx2, (hpass x2 hx2).mp ho2⟩
        have h3 : s.1.filter submitLikeB ≠ [] :=
          (filter_ne_nil_iff _ _).mpr ⟨x3, hx3, (hsubmit x3 hx3).mp ho3⟩
        have hne : loginTests ids s.2.2
            (snakeCase (derivePageName url d.title)) s.1 ≠ [] :=
          loginTests_ne_nil_iff.mpr ⟨h1, h2, h3⟩
        obtain ⟨t, ht⟩ := List.exists_mem_of_ne_nil _ hne
        refine ⟨t, ?_, (loginTests_shape t ht).1⟩
        unfold allTests
        exact List.mem_append_left _ (List.mem_append_left _ ht)
    · intro t ht hname
      unfold allTests at ht
      rcases List.mem_append.mp ht with hm | hm
      · rcases List.mem_append.mp hm with hm2 | hm2
        · exact (loginTests_shape t hm2).2
        · have := searchTests_name t hm2
          rw [this] at hname
          exact absurd hname.symm (login_ne_search _)
      · split at hm
        · have := fallbackTests_name t hm
          rw [this] at hname
          exact absurd hname.symm (login_ne_fallback _)
        · simp at hm

/-- Witness for C7 at the `DocLogin` instance. -/
theorem login_flow_iff_witness :
    ∃ res, analyzeDomAndGenerateSchema DocLogin urlLogin (fun _ => 7)
        (fun n => n) = some res ∧
      ∀ p ∈ res.pages,
        ((∃ t ∈ res.tests, t.name = loginTestName (snakeCase p.name)) ↔
          ((∃ e ∈ p.elements, ciHas (str "user") e.name ∨
              ciHas (str "email") e.name ∨ ciHas (str "login") e.name) ∧
           (∃ e ∈ p.elements, ciHas (str "pass") e.name) ∧
           (∃ e ∈ p.elements, ciHas (str "submit") e.name ∨
              ciHas (str "login") e.name ∨ ciHas (str "sign_in") e.name))) ∧
        (∀ t ∈ res.tests, t.name = loginTestName (snakeCase p.name) →
          ∃ u pw sb, (p.elements.filter userLikeB).head? = some u ∧
            (p.elements.filter passLikeB).head? = some pw ∧
            (p.elements.filter submitLikeB).head? = some sb ∧
            t.steps.map stepData = loginStepsData u.name pw.name sb.name) := by
  cases hres : analyzeDomAndGenerateSchema DocLogin urlLogin (fun _ => 7)
      (fun n => n) with
  | none => exact absurd hres (by decide)
  | some res => exact ⟨res, rfl, login_flow_iff _ _ _ _ res hres⟩

/-! ## Claim C9: element names are unique within a page -/

/-- C9. Within the one page an analysis produces, element names are
pairwise distinct: the duplicate guard keeps only the first occurrence
of each generated name. -/
theorem element_names_nodup (d : Doc) (url : Str) (rnd ids : Nat → Nat)
    (res : AnalyzeResult)
    (h : analyzeDomAndGenerateSchema d url rnd ids = some res) :
    ∀ p ∈ res.pages, (p.elements.map (·.name)).Nodup := by
  intro p hp
  unfold analyzeDomAndGenerateSchema at h
  cases hs : scrapeElems d rnd ids (selectInteractive d) [] 0 0 with
  | none => simp only [hs] at h; exact absurd h (by simp)
  | some s =>
    simp only [hs] at h
    cases h
    simp only [List.mem_singleton] at hp
    subst hp
    exact scrape_nodup _ _ _ _ _ hs (by simp)

/-- Witness for C9 at the `DocLogin` instance. -/
theorem element_names_nodup_witness :
    ∃ res, analyzeDomAndGenerateSchema DocLogin urlLogin (fun _ => 7)
        (fun n => n) = some res ∧
      ∀ p ∈ res.pages, (p.elements.map (·.name)).Nodup := by
  cases hres : analyzeDomAndGenerateSchema DocLogin urlLogin (fun _ => 7)
      (fun n => n) with
  | none => exact absurd hres (by decide)
  | some res => exact ⟨res, rfl, element_names_nodup _ _ _ _ res hres⟩

/-! ## Claim C10: only non-hidden interactive elements are scraped -/

/-- C10. Every element definition of an analysis result stems from a
document element whose lowercased tag is one of `input`, `button`, `a`,
`select`, `textarea`, and which is not an input of type `hidden`. -/
theorem elements_interactive_only (d : Doc) (url : Str) (rnd ids : Nat → Nat)
    (res : AnalyzeResult)
    (h : analyzeDomAndGenerateSchema d url rnd ids = some res) :
    ∀ p ∈ res.pages, ∀ e ∈ p.elements,
      ∃ el, el ∈ d.elems ∧ toLowerStr el.tagName ∈ INTERACTIVE_TAGS ∧
        isHiddenInput el = false ∧
        ∃ loc idn nm, generateLocator d el = some loc ∧
          e = mkElemDef idn nm el loc := by
  intro p hp e he
  unfold analyzeDomAndGenerateSchema at h
  cases hs : scrapeElems d rnd ids (selectInteractive d) [] 0 0 with
  | none => simp only [hs] at h; exact absurd h (by simp)
  | some s =>
    simp only [hs] at h
    cases h
    simp only [List.mem_singleton] at hp
    subst hp
    rcases scrape_origin _ _ _ _ _ hs e he with hacc | ⟨el, hm, hrest⟩
    · exact absurd hacc (by simp)
    · rw [selectInteractive, List.mem_filter] at hm
      exact ⟨el, hm.1, by simpa using hm.2, hrest⟩

/-! ## Claim C8: the generic fallback and the empty document -/

/-- C8. The generic fallback test is emitted exactly when neither the
login nor the search flow was detected and at least one element exists;
and a document without interactive elements yields — without error — an
empty element list and an empty test list. -/
theorem fallback_iff_and_empty (d : Doc) (url : Str) (rnd ids : Nat → Nat) :
    (∀ res, analyzeDomAndGenerateSchema d url rnd ids = some res →
      ∀ p ∈ res.pages,
        ((∃ t ∈ res.tests, t.name = fallbackTestName (snakeCase p.name)) ↔
          (loginDetectedB p.elements = false ∧
           searchDetectedB p.elements = false ∧ p.elements ≠ []))) ∧
    (selectInteractive d = [] →
      ∃ res, analyzeDomAndGenerateSchema d url rnd ids = some res ∧
        resElems res = [] ∧ res.tests = []) := by
  constructor
  · intro res h p hp
    unfold analyzeDomAndGenerateSchema at h
    cases hs : scrapeElems d rnd ids (selectInteractive d) [] 0 0 with
    | none => rw [hs] at h; exact absurd h (by simp)
    | some s =>
      rw [hs] at h
      simp only [Option.some.injEq] at h
      subst h
      simp only [List.mem_singleton] at hp
      subst hp
      constructor
      · rintro ⟨t, ht, hname⟩
        unfold allTests at ht
        rcases List.mem_append.mp ht with hm | hm
        · rcases List.mem_append.mp hm with hm2 | hm2
          · have := (loginTests_shape t hm2).1
            rw [this] at hname
            exact absurd hname (login_ne_fallback _)
          · have := searchTests_name t hm2
            rw [this] at hname
            exact absurd hname (search_ne_fallback _)
        · split at hm
          · rename_i hcond
            refine ⟨?_, ?_, hcond.2⟩
            · exact loginTests_eq_nil_iff.mp (List.append_eq_nil.mp hcond.1).1
            · exact searchTests_eq_nil_iff.mp (List.append_eq_nil.mp hcond.1).2
          · simp at hm
      · rintro ⟨hl, hse, hne⟩
        have hl2 : loginTests ids s.2.2
            (snakeCase (derivePageName url d.title)) s.1 = [] :=
          loginTests_eq_nil_iff.mpr hl
        have hs2 : ∀ j, searchTests ids j
            (snakeCase (derivePageName url d.title)) s.1 = [] :=
          fun j => searchTests_eq_nil_iff.mpr hse
        show ∃ t ∈ allTests ids s.2.2
            (snakeCase (derivePageName url d.title)) s.1,
          t.name = fallbackTestName (snakeCase (derivePageName url d.title))
        unfold allTests
        rw [hl2, hs2, if_pos ⟨rfl, hne⟩]
        simp only [List.nil_append]
        unfold fallbackTests
        exact ⟨_, List.mem_singleton.mpr rfl, rfl⟩
  · intro hsel
    have hscr : scrapeElems d rnd ids (selectInteractive d) [] 0 0 =
        some ([], 0, 0) := by rw [hsel]; rfl
    refine ⟨⟨[⟨ids (afterTestsIdx ids 0
          (snakeCase (derivePageName url d.title)) []),
        derivePageName url d.title, []⟩],
        allTests ids 0 (snakeCase (derivePageName url d.title)) []⟩,
      ?_, ?_, ?_⟩
    · unfold analyzeDomAndGenerateSchema
      rw [hscr]
    · rfl
    · show allTests ids 0 (snakeCase (derivePageName url d.title)) [] = []
      unfold allTests
      rw [show ∀ j, loginTests ids j
            (snakeCase (derivePageName url d.title)) [] = [] from
          fun j => by simp [loginTests],
        show ∀ j, searchTests ids j
            (snakeCase (derivePageName url d.title)) [] = [] from
          fun j => by simp [searchTests]]
      simp

/-- Witness for C8 at the empty document. -/
theorem fallback_iff_and_empty_witness :
    (∃ res, analyzeDomAndGenerateSchema DocEmpty urlLogin (fun _ => 7)
        (fun n => n) = some res ∧
      ∀ p ∈ res.pages,
        ((∃ t ∈ res.tests, t.name = fallbackTestName (snakeCase p.name)) ↔
          (loginDetectedB p.elements = false ∧
           searchDetectedB p.elements = false ∧ p.elements ≠ []))) ∧
    (∃ res, analyzeDomAndGenerateSchema DocEmpty urlLogin (fun _ => 7)
        (fun n => n) = some res ∧
      resElems res = [] ∧ res.tests = []) := by
  constructor
  · cases hres : analyzeDomAndGenerateSchema DocEmpty urlLogin (fun _ => 7)
        (fun n => n) with
    | none => exact absurd hres (by decide)
    | some res =>
      exact ⟨res, rfl,
        (fallback_iff_and_empty DocEmpty urlLogin (fun _ => 7)
          (fun n => n)).1 res hres⟩
  · exact (fallback_iff_and_empty DocEmpty urlLogin (fun _ => 7)
      (fun n => n)).2 (by decide)

/-- Witness for C10 at the `DocLogin` instance. -/
theorem elements_interactive_only_witness :
    ∃ res, analyzeDomAndGenerateSchema DocLogin urlLogin (fun _ => 7)
        (fun n => n) = some res ∧
      ∀ p ∈ res.pages, ∀ e ∈ p.elements,
        ∃ el, el ∈ DocLogin.elems ∧
          toLowerStr el.tagName ∈ INTERACTIVE_TAGS ∧
          isHiddenInput el = false ∧
          ∃ loc idn nm, generateLocator DocLogin el = some loc ∧
            e = mkElemDef idn nm el loc := by
  cases hres : analyzeDomAndGenerateSchema DocLogin urlLogin (fun _ => 7)
      (fun n => n) with
  | none => exact absurd hres (by decide)
  | some res => exact ⟨res, rfl, elements_interactive_only _ _ _ _ res hres⟩

end PomSpec
